import Mathlib

/-!
# Library REST API (`index.js`): gates, catalogue handlers and the borrow flow

A shallow embedding of the Express application in `index.js`.

* A request is its two headers (`x-user-role`, `x-user-id`), the `:id` path
  parameter, the JSON body (every field optional) and the `userId` slot that
  `checkUser` fills in.
* A handler is a function `Env → Store → Request → Store × Response`: it
  receives the store, returns the store it leaves behind and the answer sent.
* `Env` carries what the surroundings decide: the clock read by `new Date()`,
  the default stock of the Book model, and, for each kind of store write,
  whether that write throws (and with which message).  Look-ups never throw.
* The Sequelize models of `./models` are not part of `index.js`; the store
  operations below are modelled from the specification's data model.
* `borrowStep` splits the borrow handler at its three `await`s, so that two
  requests can be interleaved (`runSchedule`).
-/

namespace Library

/-! ## Data model -/

/-- A row of the Book table. -/
structure Book where
  id : Nat
  title : String
  author : String
  stock : Int
deriving DecidableEq, Repr

/-- Coordinates are passed through unvalidated; they are kept as scaled integers. -/
abbrev Coord := Int

/-- A row of the BorrowLog table.  `userId` is whatever `req.userId` held. -/
structure BorrowLog where
  id : Nat
  userId : Option String
  bookId : Nat
  borrowDate : Nat
  latitude : Option Coord
  longitude : Option Coord
deriving DecidableEq, Repr

/-- The relational store: both tables and their auto-increment counters. -/
structure Store where
  books : List Book
  logs : List BorrowLog
  nextBookId : Nat
  nextLogId : Nat
deriving DecidableEq, Repr

/-- The request headers read by the gates. -/
structure Headers where
  role : Option String
  userId : Option String
deriving DecidableEq, Repr

/-- The JSON body: every field may be absent. -/
structure Body where
  title : Option String
  author : Option String
  stock : Option Int
  bookId : Option Nat
  latitude : Option Coord
  longitude : Option Coord
deriving DecidableEq, Repr

/-- An Express request as far as `index.js` reads it. -/
structure Request where
  headers : Headers
  paramId : Nat
  body : Body
  userId : Option String
deriving DecidableEq, Repr

/-- The JSON documents the handlers send. -/
inductive Payload where
  | message (m : String)
  | error (e : String)
  | book (b : Book)
  | books (bs : List Book)
  | bookData (m : String) (b : Book)
  | logData (m : String) (l : BorrowLog)
  | logs (ls : List BorrowLog)
deriving DecidableEq, Repr

/-- Status code and JSON document of an answer. -/
structure Response where
  status : Nat
  payload : Payload
deriving DecidableEq, Repr

/-- What the surroundings decide for one request. -/
structure Env where
  now : Nat
  defaultStock : Int
  createFails : Option String
  updateFails : Option String
  destroyFails : Option String
deriving DecidableEq, Repr

/-- JavaScript truthiness of a header or body string: present and not empty. -/
def truthy : Option String → Bool
  | some v => v != ""
  | none => false

/-! ## Store operations -/

/-- Modelled from the spec: `Book.findAll` of the absent `./models`; returns all Book records. -/
def Book.findAll (s : Store) : List Book :=
  s.books

/-- Modelled from the spec: `Book.findByPk` of the absent `./models`; the record with
that identifier, or nothing. -/
def Book.findByPk (s : Store) (id : Nat) : Option Book :=
  s.books.find? (fun b => b.id == id)

/-- Modelled from the spec: `Book.create` of the absent `./models`; the new record gets a
generated identifier and the default stock when none is supplied.  A failing write
leaves the store as it was. -/
def Book.create (env : Env) (s : Store) (title author : String) (stock : Option Int) :
    Except String (Store × Book) :=
  match env.createFails with
  | some e => .error e
  | none =>
    let b : Book := ⟨s.nextBookId, title, author, stock.getD env.defaultStock⟩
    .ok ({ s with books := s.books ++ [b], nextBookId := s.nextBookId + 1 }, b)

/-- Partial field merge of a body into a Book (any subset of title, author, stock). -/
def Book.merge (b : Book) (p : Body) : Book :=
  { b with title := p.title.getD b.title,
           author := p.author.getD b.author,
           stock := p.stock.getD b.stock }

/-- Modelled from the spec: the instance method `update` of the absent `./models`; the
supplied fields are merged into the instance and written to the row with the
instance's identifier. -/
def Book.update (env : Env) (s : Store) (book : Book) (p : Body) : Except String (Store × Book) :=
  match env.updateFails with
  | some e => .error e
  | none =>
    .ok ({ s with books := s.books.map (fun b => if b.id == book.id then b.merge p else b) },
         book.merge p)

/-- Modelled from the spec: the instance method `destroy` of the absent `./models`; removes
the row with the instance's identifier and nothing else (no cascade). -/
def Book.destroy (env : Env) (s : Store) (book : Book) : Except String Store :=
  match env.destroyFails with
  | some e => .error e
  | none => .ok { s with books := s.books.filter (fun b => b.id != book.id) }

/-- Modelled from the spec: `BorrowLog.create` of the absent `./models`; appends a record
with a generated identifier. -/
def BorrowLog.create (env : Env) (s : Store) (userId : Option String) (bookId : Nat)
    (borrowDate : Nat) (latitude longitude : Option Coord) : Except String (Store × BorrowLog) :=
  match env.createFails with
  | some e => .error e
  | none =>
    let l : BorrowLog := ⟨s.nextLogId, userId, bookId, borrowDate, latitude, longitude⟩
    .ok ({ s with logs := s.logs ++ [l], nextLogId := s.nextLogId + 1 }, l)

/-- Modelled from the spec: `BorrowLog.findAll` of the absent `./models`. -/
def BorrowLog.findAll (s : Store) : List BorrowLog :=
  s.logs

/-! ## Middleware (`index.js` lines 11-29) -/

/-- Outcome of a middleware, with the request as the middleware leaves it: call `next()`,
or answer at once. -/
inductive Gate where
  | next (req : Request)
  | reject (req : Request) (res : Response)
deriving DecidableEq, Repr

/-- The gate `checkAdmin`. -/
def checkAdmin (req : Request) : Gate :=
  let role := req.headers.role
  if role = some "admin" then
    .next req
  else
    .reject req ⟨403, .message "Akses Ditolak: Khusus Admin!"⟩

/-- The gate `checkUser`. -/
def checkUser (req : Request) : Gate :=
  let role := req.headers.role
  let userId := req.headers.userId
  if role = some "user" ∧ truthy userId = true then
    .next { req with userId := userId }
  else
    .reject req ⟨403, .message "Akses Ditolak: Harap kirim Header x-user-role: user & x-user-id!"⟩

/-- A handler. -/
abbrev Handler := Env → Store → Request → Store × Response

/-- A route with one middleware in front of its handler. -/
def withGate (gate : Request → Gate) (handler : Handler) : Handler :=
  fun env s req =>
    match gate req with
    | .next req' => handler env s req'
    | .reject _ res => (s, res)

/-! ## Handlers -/

/-- Handler of `GET /api/books`. -/
def getBooks : Handler := fun _ s _ =>
  (s, ⟨200, .books (Book.findAll s)⟩)

/-- Handler of `GET /api/books/:id`. -/
def getBookById : Handler := fun _ s req =>
  match Book.findByPk s req.paramId with
  | none => (s, ⟨404, .message "Buku tidak ditemukan"⟩)
  | some book => (s, ⟨200, .book book⟩)

/-- Handler of `POST /api/books`. -/
def postBooks : Handler := fun env s req =>
  let title := req.body.title
  let author := req.body.author
  let stock := req.body.stock
  if !truthy title || !truthy author then
    (s, ⟨400, .message "Title dan Author tidak boleh kosong!"⟩)
  else
    match Book.create env s (title.getD "") (author.getD "") stock with
    | .ok (s', newBook) => (s', ⟨201, .bookData "Buku berhasil ditambah" newBook⟩)
    | .error e => (s, ⟨500, .error e⟩)

/-- Handler of `PUT /api/books/:id`. -/
def putBook : Handler := fun env s req =>
  match Book.findByPk s req.paramId with
  | none => (s, ⟨404, .message "Buku tidak ditemukan"⟩)
  | some book =>
    match Book.update env s book req.body with
    | .ok (s', book') => (s', ⟨200, .bookData "Buku berhasil diupdate" book'⟩)
    | .error e => (s, ⟨500, .error e⟩)

/-- Handler of `DELETE /api/books/:id`. -/
def deleteBook : Handler := fun env s req =>
  match Book.findByPk s req.paramId with
  | none => (s, ⟨404, .message "Buku tidak ditemukan"⟩)
  | some book =>
    match Book.destroy env s book with
    | .ok s' => (s', ⟨200, .message "Buku berhasil dihapus"⟩)
    | .error e => (s, ⟨500, .error e⟩)

/-- The body `{ stock: n }`. -/
def stockPatch (n : Int) : Body :=
  ⟨none, none, some n, none, none, none⟩

/-- Handler of `POST /api/borrow`. -/
def postBorrow : Handler := fun env s req =>
  let bookId := req.body.bookId
  let latitude := req.body.latitude
  let longitude := req.body.longitude
  match bookId.bind (Book.findByPk s) with
  | none => (s, ⟨400, .message "Buku habis atau tidak ditemukan"⟩)
  | some book =>
    if book.stock ≤ 0 then
      (s, ⟨400, .message "Buku habis atau tidak ditemukan"⟩)
    else
      match BorrowLog.create env s req.userId (bookId.getD 0) env.now latitude longitude with
      | .error e => (s, ⟨500, .error e⟩)
      | .ok (s₁, log) =>
        match Book.update env s₁ book (stockPatch (book.stock - 1)) with
        | .error e => (s₁, ⟨500, .error e⟩)
        | .ok (s₂, _) => (s₂, ⟨201, .logData "Peminjaman Berhasil!" log⟩)

/-- Handler of `GET /api/borrows`. -/
def getBorrows : Handler := fun _ s _ =>
  (s, ⟨200, .logs (BorrowLog.findAll s)⟩)

/-! ## Routes -/

/-- Route `POST /api/books`. -/
def routePostBooks : Handler := withGate checkAdmin postBooks

/-- Route `PUT /api/books/:id`. -/
def routePutBook : Handler := withGate checkAdmin putBook

/-- Route `DELETE /api/books/:id`. -/
def routeDeleteBook : Handler := withGate checkAdmin deleteBook

/-- Route `POST /api/borrow`. -/
def routePostBorrow : Handler := withGate checkUser postBorrow

/-! ## The borrow handler, one store call at a time -/

/-- Where a borrow request stands: before the look-up (line 104), before the log is
created (line 109), before the stock is written (line 117), or answered. -/
inductive BorrowPc where
  | lookup
  | creating (book : Book)
  | updating (book : Book) (log : BorrowLog)
  | done (res : Response)
deriving DecidableEq, Repr

/-- One store call of the borrow handler together with the code up to the next `await`. -/
def borrowStep (env : Env) (req : Request) (s : Store) : BorrowPc → Store × BorrowPc
  | .lookup =>
    match req.body.bookId.bind (Book.findByPk s) with
    | none => (s, .done ⟨400, .message "Buku habis atau tidak ditemukan"⟩)
    | some book =>
      if book.stock ≤ 0 then
        (s, .done ⟨400, .message "Buku habis atau tidak ditemukan"⟩)
      else
        (s, .creating book)
  | .creating book =>
    match BorrowLog.create env s req.userId (req.body.bookId.getD 0) env.now
        req.body.latitude req.body.longitude with
    | .error e => (s, .done ⟨500, .error e⟩)
    | .ok (s₁, log) => (s₁, .updating book log)
  | .updating book log =>
    match Book.update env s book (stockPatch (book.stock - 1)) with
    | .error e => (s, .done ⟨500, .error e⟩)
    | .ok (s₂, _) => (s₂, .done ⟨201, .logData "Peminjaman Berhasil!" log⟩)
  | .done res => (s, .done res)

/-- Two borrow requests in flight over one store. -/
structure Sys where
  store : Store
  pc₁ : BorrowPc
  pc₂ : BorrowPc
deriving DecidableEq, Repr

/-- The scheduler lets the first (`true`) or the second (`false`) request make its next
store call. -/
def sysStep (env₁ env₂ : Env) (r₁ r₂ : Request) (σ : Sys) (first : Bool) : Sys :=
  if first then
    let (s, pc) := borrowStep env₁ r₁ σ.store σ.pc₁
    { σ with store := s, pc₁ := pc }
  else
    let (s, pc) := borrowStep env₂ r₂ σ.store σ.pc₂
    { σ with store := s, pc₂ := pc }

/-- Runs a schedule. -/
def runSchedule (env₁ env₂ : Env) (r₁ r₂ : Request) (σ : Sys) (sched : List Bool) : Sys :=
  sched.foldl (sysStep env₁ env₂ r₁ r₂) σ

/-- Both requests are about to start. -/
def Sys.init (s : Store) : Sys :=
  ⟨s, .lookup, .lookup⟩

/-- The status a finished request answered with (0 while it is in flight). -/
def BorrowPc.status : BorrowPc → Nat
  | .done res => res.status
  | _ => 0

/-- Number of store calls a request has behind it (3: answered). -/
def BorrowPc.rank : BorrowPc → Nat
  | .lookup => 0
  | .creating _ => 1
  | .updating _ _ => 2
  | .done _ => 3

/-- Number of requests that answered 201. -/
def Sys.successes (σ : Sys) : Nat :=
  (if σ.pc₁.status = 201 then 1 else 0) + (if σ.pc₂.status = 201 then 1 else 0)

/-! ## Sequences of requests handled one at a time -/

/-- The routes of the API. -/
inductive Route where
  | listBooks
  | getBook
  | createBook
  | updateBook
  | deleteBook
  | borrow
  | listBorrows
deriving DecidableEq, Repr

/-- The handler chain registered for a route. -/
def Route.handler : Route → Handler
  | .listBooks => getBooks
  | .getBook => getBookById
  | .createBook => routePostBooks
  | .updateBook => routePutBook
  | .deleteBook => routeDeleteBook
  | .borrow => routePostBorrow
  | .listBorrows => getBorrows

/-- One call of the API. -/
structure ApiCall where
  route : Route
  env : Env
  req : Request
deriving DecidableEq, Repr

/-- Handles the calls one after the other; returns the final store and every call with
its answer, in order. -/
def runTrace (s : Store) : List ApiCall → Store × List (ApiCall × Response)
  | [] => (s, [])
  | c :: cs =>
    let (s₁, res) := c.route.handler c.env s c.req
    let (s₂, evs) := runTrace s₁ cs
    (s₂, (c, res) :: evs)

/-- Handles borrow requests one after the other. -/
def runBorrows (s : Store) (reqs : List (Env × Request)) : Store × List (ApiCall × Response) :=
  runTrace s (reqs.map (fun er => ⟨.borrow, er.1, er.2⟩))

/-- The stock of book `id` (0 when there is no such book). -/
def stockOf (s : Store) (id : Nat) : Int :=
  ((Book.findByPk s id).map Book.stock).getD 0

/-- Number of BorrowLog records that reference book `id`. -/
def logsFor (s : Store) (id : Nat) : Nat :=
  (s.logs.filter (fun l => l.bookId == id)).length

/-- Number of borrow calls for book `id` that were answered 201. -/
def successfulBorrows (id : Nat) (evs : List (ApiCall × Response)) : Nat :=
  (evs.filter (fun cr => cr.1.req.body.bookId == some id && cr.2.status == 201)).length

/-- Number of borrow calls for book `id` that were answered 500 after their log had been
created (the stock write threw, the log write did not). -/
def orphanedBorrows (id : Nat) (evs : List (ApiCall × Response)) : Nat :=
  (evs.filter (fun cr => cr.1.req.body.bookId == some id && cr.2.status == 500
      && cr.1.env.createFails == none)).length

/-- Every identifier in use is below the auto-increment counter. -/
def Store.Fresh (s : Store) : Prop :=
  ∀ b ∈ s.books, b.id < s.nextBookId

instance (s : Store) : Decidable s.Fresh :=
  inferInstanceAs (Decidable (∀ b ∈ s.books, b.id < s.nextBookId))

/-- Follows the specification's words: the effect of one answered call on "the record most
recently written by the last successful create/update" of `id`; a successful delete
leaves no record. -/
def writeOf (id : Nat) (cur : Option Book) (c : ApiCall) (res : Response) : Option Book :=
  match c.route, res.status, res.payload with
  | .createBook, 201, .bookData _ b => if b.id = id then some b else cur
  | .updateBook, 200, .bookData _ b => if b.id = id then some b else cur
  | .deleteBook, 200, _ => if c.req.paramId = id then none else cur
  | _, _, _ => cur

/-- Follows the specification's words: the record most recently written by the last
successful create/update of `id`, starting from the record `cur`. -/
def lastWritten (id : Nat) (cur : Option Book) (evs : List (ApiCall × Response)) : Option Book :=
  evs.foldl (fun acc cr => writeOf id acc cr.1 cr.2) cur

/-- As `writeOf`, and a successful borrow of `id` lowers the stock of the record by one. -/
def writeOfWithBorrow (id : Nat) (cur : Option Book) (c : ApiCall) (res : Response) :
    Option Book :=
  match c.route, res.status, res.payload with
  | .borrow, 201, .logData _ l =>
    if l.bookId = id then cur.map (fun b => { b with stock := b.stock - 1 }) else cur
  | _, _, _ => writeOf id cur c res

/-- The record most recently written by the last successful create, update or borrow. -/
def lastWrittenWithBorrows (id : Nat) (cur : Option Book) (evs : List (ApiCall × Response)) :
    Option Book :=
  evs.foldl (fun acc cr => writeOfWithBorrow id acc cr.1 cr.2) cur

/-- The answer of `GET /api/books/:id` for a record, or for none. -/
def getAnswer : Option Book → Response
  | some b => ⟨200, .book b⟩
  | none => ⟨404, .message "Buku tidak ditemukan"⟩

/-- A request that carries nothing but a path parameter. -/
def idRequest (id : Nat) : Request :=
  ⟨⟨none, none⟩, id, ⟨none, none, none, none, none, none⟩, none⟩

/-- A surrounding in which no store write throws. -/
def Env.quiet (now : Nat) (defaultStock : Int) : Env :=
  ⟨now, defaultStock, none, none, none⟩

/-! ## Example values -/

/-- A store with two books (stock 2 and stock 0) and no borrow yet. -/
def exStore : Store :=
  ⟨[⟨1, "Dune", "Herbert", 2⟩, ⟨2, "Emma", "Austen", 0⟩], [], 3, 1⟩

/-- A store whose only book has a single copy left. -/
def exLastCopy : Store :=
  ⟨[⟨1, "Dune", "Herbert", 1⟩], [], 2, 1⟩

/-- A borrow request of user "7" for book `id`, as the client sends it. -/
def exBorrowReq (id : Nat) : Request :=
  ⟨⟨some "user", some "7"⟩, 0, ⟨none, none, none, some id, none, none⟩, none⟩

/-- A borrow request of user `uid` for book `id`, as `checkUser` hands it on. -/
def exGatedBorrowReq (uid : String) (id : Nat) : Request :=
  ⟨⟨some "user", some uid⟩, 0, ⟨none, none, none, some id, none, none⟩, some uid⟩

/-- An admin request on book `id` with the given body. -/
def exAdminReq (id : Nat) (body : Body) : Request :=
  ⟨⟨some "admin", none⟩, id, body, none⟩

/-- The empty body. -/
def exNoBody : Body :=
  ⟨none, none, none, none, none, none⟩

/-- The empty store of a fresh installation. -/
def exEmpty : Store :=
  ⟨[], [], 1, 1⟩

/-- The example scenario of the specification: an admin creates "Dune" with stock 2, then
user "7" borrows it. -/
def exScenario : List ApiCall :=
  [⟨.createBook, Env.quiet 0 1,
      exAdminReq 0 ⟨some "Dune", some "Herbert", some 2, none, none, none⟩⟩,
   ⟨.borrow, Env.quiet 5 1, exBorrowReq 1⟩]

/-- Number of BorrowLog records a request has created so far (none when it answered 400). -/
def BorrowPc.holdsLog : BorrowPc → Nat
  | .lookup => 0
  | .creating _ => 0
  | .updating _ _ => 1
  | .done res => if res.status = 201 then 1 else 0

/-- What a request for the last copy of book `B` can hold: the book as read (id `B`,
stock 1) while in flight, status 201 or 400 once answered. -/
def BorrowPc.Valid (B : Nat) : BorrowPc → Prop
  | .lookup => True
  | .creating book => book.id = B ∧ book.stock = 1
  | .updating book _ => book.id = B ∧ book.stock = 1
  | .done res => res.status = 201 ∨ res.status = 400

/-- Invariant of two requests racing for the last copy of book `B`, `n` being the number
of logs before the race. -/
def RaceInv (B n : Nat) (σ : Sys) : Prop :=
  σ.pc₁.Valid B ∧ σ.pc₂.Valid B ∧ (Book.findByPk σ.store B).isSome = true ∧
  stockOf σ.store B = (if σ.pc₁.status = 201 ∨ σ.pc₂.status = 201 then 0 else 1) ∧
  (σ.pc₁.status = 400 → σ.pc₂.status = 201) ∧
  (σ.pc₂.status = 400 → σ.pc₁.status = 201) ∧
  σ.store.logs.length = n + σ.pc₁.holdsLog + σ.pc₂.holdsLog

/-- The schedule in which both requests look the book up before either writes. -/
def exRace : List Bool :=
  [true, false, true, true, false, false]

/-- In the turns `pre` both requests have looked the book up and neither has written the
stock yet: each request had one or two turns. -/
def bothInFlight (pre : List Bool) : Bool :=
  decide (1 ≤ pre.count true ∧ pre.count true ≤ 2 ∧ 1 ≤ pre.count false ∧ pre.count false ≤ 2)

/-- Both look-ups precede the first stock write: at some point of the schedule both
requests are in flight. -/
def lookupsBeforeWrites (sched : List Bool) : Bool :=
  sched.inits.any bothInFlight

/-! ## Gates -/

theorem truthy_iff (v : Option String) : truthy v = true ↔ ∃ w, v = some w ∧ w ≠ "" := by
  cases v with
  | none => simp [truthy]
  | some w => simp [truthy]

/-- C4: `checkAdmin` calls `next()` exactly when `x-user-role` is the string "admin"; for
every other value, and for an absent header, it answers 403 with the fixed message, and
the POST, PUT and DELETE routes on `/api/books` then answer that 403 without touching the
store. -/
theorem checkAdmin_spec (env : Env) (s : Store) (req : Request) :
    (checkAdmin req = .next req ↔ req.headers.role = some "admin") ∧
    (req.headers.role ≠ some "admin" →
      checkAdmin req = .reject req ⟨403, .message "Akses Ditolak: Khusus Admin!"⟩ ∧
      routePostBooks env s req = (s, ⟨403, .message "Akses Ditolak: Khusus Admin!"⟩) ∧
      routePutBook env s req = (s, ⟨403, .message "Akses Ditolak: Khusus Admin!"⟩) ∧
      routeDeleteBook env s req = (s, ⟨403, .message "Akses Ditolak: Khusus Admin!"⟩)) ∧
    (req.headers.role = some "admin" →
      routePostBooks env s req = postBooks env s req ∧
      routePutBook env s req = putBook env s req ∧
      routeDeleteBook env s req = deleteBook env s req) := by
  refine ⟨?_, ?_, ?_⟩
  · by_cases h : req.headers.role = some "admin" <;> simp [checkAdmin, h]
  · intro h
    simp [routePostBooks, routePutBook, routeDeleteBook, withGate, checkAdmin, h]
  · intro h
    simp [routePostBooks, routePutBook, routeDeleteBook, withGate, checkAdmin, h]

theorem checkAdmin_spec_witness :
    checkAdmin (⟨⟨some "user", some "7"⟩, 1, ⟨some "Dune", some "Herbert", some 2, none, none, none⟩, none⟩ : Request)
        = .reject ⟨⟨some "user", some "7"⟩, 1, ⟨some "Dune", some "Herbert", some 2, none, none, none⟩, none⟩
            ⟨403, .message "Akses Ditolak: Khusus Admin!"⟩ ∧
    routePostBooks (Env.quiet 0 1) ⟨[], [], 1, 1⟩
        ⟨⟨some "user", some "7"⟩, 1, ⟨some "Dune", some "Herbert", some 2, none, none, none⟩, none⟩
      = (⟨[], [], 1, 1⟩, ⟨403, .message "Akses Ditolak: Khusus Admin!"⟩) :=
  have h := (checkAdmin_spec (Env.quiet 0 1) ⟨[], [], 1, 1⟩
    ⟨⟨some "user", some "7"⟩, 1, ⟨some "Dune", some "Herbert", some 2, none, none, none⟩, none⟩).2.1
    (by decide)
  ⟨h.1, h.2.1⟩

/-- C5: `checkUser` calls `next()` exactly when `x-user-role` is "user" and `x-user-id` is
present and not empty; the request it passes on is the incoming one with `userId` set to
the header value; in every other case it answers 403, leaves the request as it came (no
`userId` attached) and the handler behind it is not run. -/
theorem checkUser_spec (req : Request) :
    ((∃ req', checkUser req = .next req') ↔
      (req.headers.role = some "user" ∧ ∃ v, req.headers.userId = some v ∧ v ≠ "")) ∧
    (∀ req', checkUser req = .next req' →
      req'.userId = req.headers.userId ∧ req' = { req with userId := req.headers.userId }) ∧
    (¬ (req.headers.role = some "user" ∧ ∃ v, req.headers.userId = some v ∧ v ≠ "") →
      checkUser req = .reject req
        ⟨403, .message "Akses Ditolak: Harap kirim Header x-user-role: user & x-user-id!"⟩ ∧
      ∀ (handler : Handler) (env : Env) (s : Store),
        withGate checkUser handler env s req =
          (s, ⟨403, .message "Akses Ditolak: Harap kirim Header x-user-role: user & x-user-id!"⟩)) := by
  rw [← truthy_iff]
  by_cases h : req.headers.role = some "user" ∧ truthy req.headers.userId = true
  · refine ⟨?_, ?_, ?_⟩
    · simp [checkUser, h]
    · intro req' hreq
      simp only [checkUser, h, and_self, if_true] at hreq
      cases hreq
      simp
    · intro hn
      exact absurd h hn
  · refine ⟨?_, ?_, ?_⟩
    · simp [checkUser, h]
    · intro req' hreq
      simp [checkUser, h] at hreq
    · intro _
      simp [withGate, checkUser, h]

theorem checkUser_spec_witness :
    checkUser (exBorrowReq 1) = .next (exGatedBorrowReq "7" 1) ∧
    (exGatedBorrowReq "7" 1).userId = (exBorrowReq 1).headers.userId :=
  ⟨by decide,
   ((checkUser_spec (exBorrowReq 1)).2.1 (exGatedBorrowReq "7" 1) (by decide)).1⟩

/-! ## Store look-ups after a write -/

theorem findByPk_id {s : Store} {id : Nat} {book : Book} (h : Book.findByPk s id = some book) :
    book.id = id := by
  have := List.find?_some h
  simpa using this

theorem merge_id (b : Book) (p : Body) : (b.merge p).id = b.id := rfl

theorem merge_stockPatch (b : Book) (n : Int) : b.merge (stockPatch n) = { b with stock := n } := rfl

theorem find_map_merge (books : List Book) (id target : Nat) (p : Body) :
    (books.map (fun b => if b.id == target then b.merge p else b)).find? (fun b => b.id == id)
      = (books.find? (fun b => b.id == id)).map (fun b => if b.id == target then b.merge p else b) := by
  induction books with
  | nil => rfl
  | cons b bs ih =>
    simp only [List.map_cons, List.find?_cons]
    have hid : (if b.id == target then b.merge p else b).id = b.id := by
      split <;> rfl
    rw [hid]
    cases hb : b.id == id
    · simpa using ih
    · simp

theorem find_filter_ne (books : List Book) (id target : Nat) :
    (books.filter (fun b => b.id != target)).find? (fun b => b.id == id)
      = if id = target then none else books.find? (fun b => b.id == id) := by
  induction books with
  | nil => simp
  | cons b bs ih =>
    by_cases hbt : b.id = target
    · by_cases hit : id = target
      · simp [List.filter_cons, hbt, hit, ih]
      · have : ¬ target = id := fun h => hit h.symm
        simp [List.filter_cons, hbt, hit, ih, this]
    · by_cases hbi : b.id = id
      · have : ¬ id = target := fun h => hbt (hbi.trans h)
        simp [List.filter_cons, hbt, hbi, this]
      · simp [List.filter_cons, hbt, hbi, ih]

theorem find_append_fresh (books : List Book) (b : Book) (id : Nat)
    (hfresh : ∀ x ∈ books, x.id ≠ b.id) :
    (books ++ [b]).find? (fun x => x.id == id)
      = if b.id = id then some b else books.find? (fun x => x.id == id) := by
  rw [List.find?_append]
  by_cases hb : b.id = id
  · have : books.find? (fun x => x.id == id) = none := by
      rw [List.find?_eq_none]
      intro x hx
      have := hfresh x hx
      simp [← hb, this]
    simp [this, hb]
  · cases h : books.find? (fun x => x.id == id) <;> simp [hb]

/-! ## The borrow handler -/

theorem routePostBorrow_gated (env : Env) (s : Store) (req : Request) (uid : String)
    (hrole : req.headers.role = some "user") (huid : req.headers.userId = some uid)
    (hne : uid ≠ "") :
    routePostBorrow env s req = postBorrow env s { req with userId := some uid } := by
  simp [routePostBorrow, withGate, checkUser, hrole, huid, truthy, hne]

theorem postBorrow_ok (env : Env) (s : Store) (req : Request) (B : Nat) (book : Book)
    (hbody : req.body.bookId = some B) (hfind : Book.findByPk s B = some book)
    (hstock : 0 < book.stock) (hc : env.createFails = none) (hu : env.updateFails = none) :
    postBorrow env s req =
      (⟨s.books.map (fun b => if b.id == book.id then b.merge (stockPatch (book.stock - 1)) else b),
        s.logs ++ [⟨s.nextLogId, req.userId, B, env.now, req.body.latitude, req.body.longitude⟩],
        s.nextBookId, s.nextLogId + 1⟩,
       ⟨201, .logData "Peminjaman Berhasil!"
        ⟨s.nextLogId, req.userId, B, env.now, req.body.latitude, req.body.longitude⟩⟩) := by
  simp [postBorrow, hbody, hfind, not_le.mpr hstock, BorrowLog.create, Book.update, hc, hu]

/-- C1: a borrow request that passes the user gate, for a book that exists with stock
`N > 0`, when both store writes succeed: the answer is 201 with the new BorrowLog, that
log (user from the `x-user-id` header, the requested book) is the one record added, the
book's stock is `N - 1`, the other books and the earlier logs are as before. -/
theorem borrow_success (env : Env) (s : Store) (req : Request) (uid : String) (B : Nat)
    (book : Book)
    (hrole : req.headers.role = some "user") (huid : req.headers.userId = some uid)
    (hne : uid ≠ "") (hbody : req.body.bookId = some B)
    (hfind : Book.findByPk s B = some book) (hstock : 0 < book.stock)
    (hc : env.createFails = none) (hu : env.updateFails = none) :
    (routePostBorrow env s req).2 = ⟨201, .logData "Peminjaman Berhasil!"
        ⟨s.nextLogId, some uid, B, env.now, req.body.latitude, req.body.longitude⟩⟩ ∧
    (routePostBorrow env s req).1.logs =
      s.logs ++ [⟨s.nextLogId, some uid, B, env.now, req.body.latitude, req.body.longitude⟩] ∧
    Book.findByPk (routePostBorrow env s req).1 B = some { book with stock := book.stock - 1 } ∧
    (routePostBorrow env s req).1.books =
      s.books.map (fun b => if b.id = B then { b with stock := book.stock - 1 } else b) ∧
    (∀ id, id ≠ B → Book.findByPk (routePostBorrow env s req).1 id = Book.findByPk s id) := by
  have hid := findByPk_id hfind
  rw [routePostBorrow_gated env s req uid hrole huid hne,
    postBorrow_ok env s { req with userId := some uid } B book hbody hfind hstock hc hu]
  refine ⟨rfl, rfl, ?_, ?_, ?_⟩
  · simp only [Book.findByPk, find_map_merge]
    have hfind' : s.books.find? (fun b => b.id == B) = some book := hfind
    simp [hfind', hid, merge_stockPatch]
  · simp [hid, merge_stockPatch]
  · intro id hne'
    simp only [Book.findByPk, find_map_merge]
    cases h : s.books.find? (fun b => b.id == id) with
    | none => rfl
    | some b =>
      have hb : b.id = id := by simpa using List.find?_some h
      simp [hb, hid, hne']

theorem borrow_success_witness :
    (routePostBorrow (Env.quiet 5 1) exStore (exBorrowReq 1)).2
      = ⟨201, .logData "Peminjaman Berhasil!" ⟨1, some "7", 1, 5, none, none⟩⟩ ∧
    Book.findByPk (routePostBorrow (Env.quiet 5 1) exStore (exBorrowReq 1)).1 1
      = some ⟨1, "Dune", "Herbert", 1⟩ :=
  have h := borrow_success (Env.quiet 5 1) exStore (exBorrowReq 1) "7" 1 ⟨1, "Dune", "Herbert", 2⟩
    rfl rfl (by decide) rfl (by decide) (by decide) rfl rfl
  ⟨h.1, h.2.2.1⟩

/-- C2: a borrow request that passes the user gate, for a book id that has no record or
whose record has stock at most 0: the answer is 400 and the store is exactly as before. -/
theorem borrow_exhausted (env : Env) (s : Store) (req : Request) (uid : String)
    (hrole : req.headers.role = some "user") (huid : req.headers.userId = some uid)
    (hne : uid ≠ "")
    (hbook : ∀ book, req.body.bookId.bind (Book.findByPk s) = some book → book.stock ≤ 0) :
    routePostBorrow env s req = (s, ⟨400, .message "Buku habis atau tidak ditemukan"⟩) := by
  rw [routePostBorrow_gated env s req uid hrole huid hne]
  simp only [postBorrow]
  cases h : req.body.bookId.bind (Book.findByPk s) with
  | none => rfl
  | some book => simp [hbook book h]

theorem borrow_exhausted_witness :
    routePostBorrow (Env.quiet 5 1) exStore (exBorrowReq 2)
      = (exStore, ⟨400, .message "Buku habis atau tidak ditemukan"⟩) :=
  borrow_exhausted (Env.quiet 5 1) exStore (exBorrowReq 2) "7" rfl rfl (by decide)
    (by decide)

/-- C10: in the borrow handler on a book with stock above 0, if the log is created and the
stock write then throws, the answer is 500, the new log stays in the store and the books
are as before (no rollback); if creating the log throws, the answer is 500 and the store
is unchanged. -/
theorem borrow_partial_failure (env : Env) (s : Store) (req : Request) (B : Nat) (book : Book)
    (e : String) (hbody : req.body.bookId = some B) (hfind : Book.findByPk s B = some book)
    (hstock : 0 < book.stock) :
    (env.createFails = none → env.updateFails = some e →
      postBorrow env s req =
        (⟨s.books,
          s.logs ++ [⟨s.nextLogId, req.userId, B, env.now, req.body.latitude, req.body.longitude⟩],
          s.nextBookId, s.nextLogId + 1⟩,
         ⟨500, .error e⟩) ∧
      (postBorrow env s req).1.books = s.books ∧
      Book.findByPk (postBorrow env s req).1 B = some book) ∧
    (env.createFails = some e → postBorrow env s req = (s, ⟨500, .error e⟩)) := by
  constructor
  · intro hc hu
    have h : postBorrow env s req =
        (⟨s.books,
          s.logs ++ [⟨s.nextLogId, req.userId, B, env.now, req.body.latitude, req.body.longitude⟩],
          s.nextBookId, s.nextLogId + 1⟩,
         ⟨500, .error e⟩) := by
      simp [postBorrow, hbody, hfind, not_le.mpr hstock, BorrowLog.create, Book.update, hc, hu]
    rw [h]
    exact ⟨rfl, rfl, hfind⟩
  · intro hc
    simp [postBorrow, hbody, hfind, not_le.mpr hstock, BorrowLog.create, hc]

theorem borrow_partial_failure_witness :
    postBorrow ⟨5, 1, none, some "deadlock", none⟩ exStore (exGatedBorrowReq "7" 1)
      = (⟨[⟨1, "Dune", "Herbert", 2⟩, ⟨2, "Emma", "Austen", 0⟩],
          [⟨1, some "7", 1, 5, none, none⟩], 3, 2⟩, ⟨500, .error "deadlock"⟩) :=
  ((borrow_partial_failure ⟨5, 1, none, some "deadlock", none⟩ exStore (exGatedBorrowReq "7" 1)
    1 ⟨1, "Dune", "Herbert", 2⟩ "deadlock" rfl (by decide) (by decide)).1 rfl rfl).1

/-! ## Catalogue handlers -/

theorem routeAdmin_gated (handler : Handler) (env : Env) (s : Store) (req : Request)
    (hrole : req.headers.role = some "admin") :
    withGate checkAdmin handler env s req = handler env s req := by
  simp [withGate, checkAdmin, hrole]

/-- C6: an admin-gated `POST /api/books` whose body has no title or no author (missing or
empty) is answered 400 and the store is unchanged; with a non-empty title and author and
a store write that succeeds it is answered 201 with the created record, which carries
the supplied title and author, the supplied stock (the model's default when the body has
none) and a generated identifier, and is the one record added. -/
theorem create_book_spec (env : Env) (s : Store) (req : Request)
    (hrole : req.headers.role = some "admin") :
    ((req.body.title = none ∨ req.body.title = some "" ∨
        req.body.author = none ∨ req.body.author = some "") →
      routePostBooks env s req = (s, ⟨400, .message "Title dan Author tidak boleh kosong!"⟩)) ∧
    (∀ title author, req.body.title = some title → title ≠ "" →
      req.body.author = some author → author ≠ "" → env.createFails = none →
      routePostBooks env s req =
        (⟨s.books ++ [⟨s.nextBookId, title, author, req.body.stock.getD env.defaultStock⟩],
          s.logs, s.nextBookId + 1, s.nextLogId⟩,
         ⟨201, .bookData "Buku berhasil ditambah"
          ⟨s.nextBookId, title, author, req.body.stock.getD env.defaultStock⟩⟩) ∧
      ∀ n, req.body.stock = some n → req.body.stock.getD env.defaultStock = n) := by
  unfold routePostBooks
  rw [routeAdmin_gated postBooks env s req hrole]
  constructor
  · intro h
    rcases h with h | h | h | h <;> simp [postBooks, h, truthy]
  · intro title author ht hte ha hae hc
    refine ⟨?_, ?_⟩
    · simp [postBooks, ht, ha, truthy, hte, hae, Book.create, hc]
    · intro n hn
      simp [hn]

theorem create_book_spec_witness :
    routePostBooks (Env.quiet 0 1) exStore
        (exAdminReq 0 ⟨some "", some "Herbert", some 2, none, none, none⟩)
      = (exStore, ⟨400, .message "Title dan Author tidak boleh kosong!"⟩) ∧
    routePostBooks (Env.quiet 0 1) exEmpty
        (exAdminReq 0 ⟨some "Dune", some "Herbert", some 2, none, none, none⟩)
      = (⟨[⟨1, "Dune", "Herbert", 2⟩], [], 2, 1⟩,
         ⟨201, .bookData "Buku berhasil ditambah" ⟨1, "Dune", "Herbert", 2⟩⟩) :=
  ⟨(create_book_spec (Env.quiet 0 1) exStore
      (exAdminReq 0 ⟨some "", some "Herbert", some 2, none, none, none⟩) rfl).1
      (Or.inr (Or.inl rfl)),
   ((create_book_spec (Env.quiet 0 1) exEmpty
      (exAdminReq 0 ⟨some "Dune", some "Herbert", some 2, none, none, none⟩) rfl).2
      "Dune" "Herbert" rfl (by decide) rfl (by decide) rfl).1⟩

/-- C8, as stated, fails when the store's delete throws: the book exists, the request is
admin-gated, yet the answer is 500 and a following `GET /api/books/:id` still returns
the book. -/
theorem delete_store_failure_counterexample :
    (exAdminReq 1 exNoBody).headers.role = some "admin" ∧
    Book.findByPk exStore 1 = some ⟨1, "Dune", "Herbert", 2⟩ ∧
    routeDeleteBook ⟨0, 1, none, none, some "lock wait timeout"⟩ exStore (exAdminReq 1 exNoBody)
      = (exStore, ⟨500, .error "lock wait timeout"⟩) ∧
    (getBookById (Env.quiet 0 1)
      (routeDeleteBook ⟨0, 1, none, none, some "lock wait timeout"⟩ exStore
        (exAdminReq 1 exNoBody)).1 (idRequest 1)).2
      = ⟨200, .book ⟨1, "Dune", "Herbert", 2⟩⟩ := by
  decide

/-- C8 (amended): an admin-gated `DELETE /api/books/:id` on an id without a record is
answered 404 and the store is unchanged; on an existing id, when the store's delete
succeeds, it is answered 200, the book is removed (a following get-by-id answers 404, the
list no longer holds the id), every other book is unchanged and the BorrowLog records are
unchanged and still returned by `GET /api/borrows`; when the delete throws, the answer is
500 and the store is unchanged. -/
theorem delete_book_spec (env : Env) (s : Store) (req : Request)
    (hrole : req.headers.role = some "admin") :
    (Book.findByPk s req.paramId = none →
      routeDeleteBook env s req = (s, ⟨404, .message "Buku tidak ditemukan"⟩)) ∧
    (∀ book, Book.findByPk s req.paramId = some book →
      (env.destroyFails = none →
        (routeDeleteBook env s req).2 = ⟨200, .message "Buku berhasil dihapus"⟩ ∧
        (routeDeleteBook env s req).1.books = s.books.filter (fun b => b.id != req.paramId) ∧
        (∀ env', getBookById env' (routeDeleteBook env s req).1 (idRequest req.paramId)
          = ((routeDeleteBook env s req).1, ⟨404, .message "Buku tidak ditemukan"⟩)) ∧
        (∀ b ∈ Book.findAll (routeDeleteBook env s req).1, b.id ≠ req.paramId) ∧
        (∀ id, id ≠ req.paramId →
          Book.findByPk (routeDeleteBook env s req).1 id = Book.findByPk s id) ∧
        (routeDeleteBook env s req).1.logs = s.logs ∧
        (∀ env', (getBorrows env' (routeDeleteBook env s req).1 (idRequest 0)).2
          = ⟨200, .logs s.logs⟩)) ∧
      (∀ e, env.destroyFails = some e →
        routeDeleteBook env s req = (s, ⟨500, .error e⟩))) := by
  unfold routeDeleteBook
  rw [routeAdmin_gated deleteBook env s req hrole]
  constructor
  · intro h
    simp [deleteBook, h]
  · intro book hfind
    have hid := findByPk_id hfind
    constructor
    · intro hd
      have h : deleteBook env s req =
          (⟨s.books.filter (fun b => b.id != req.paramId), s.logs, s.nextBookId, s.nextLogId⟩,
           ⟨200, .message "Buku berhasil dihapus"⟩) := by
        simp [deleteBook, hfind, Book.destroy, hd, hid]
      rw [h]
      refine ⟨rfl, rfl, ?_, ?_, ?_, rfl, ?_⟩
      · intro env'
        simp only [getBookById, idRequest, Book.findByPk, find_filter_ne]
        simp
      · intro b hb
        simp only [Book.findAll, List.mem_filter] at hb
        simpa using hb.2
      · intro id hne
        simp only [Book.findByPk, find_filter_ne]
        simp [hne]
      · intro env'
        rfl
    · intro e hd
      simp [deleteBook, hfind, Book.destroy, hd]

theorem delete_book_spec_witness :
    (routeDeleteBook (Env.quiet 0 1) exStore (exAdminReq 1 exNoBody)).1.books
      = [⟨2, "Emma", "Austen", 0⟩] :=
  ((delete_book_spec (Env.quiet 0 1) exStore (exAdminReq 1 exNoBody) rfl).2
    ⟨1, "Dune", "Herbert", 2⟩ (by decide)).1 rfl |>.2.1

/-! ## Borrow requests handled one at a time -/

theorem stockOf_logs (books : List Book) (l₁ l₂ : List BorrowLog) (a b c d : Nat) (B : Nat) :
    stockOf ⟨books, l₁, a, b⟩ B = stockOf ⟨books, l₂, c, d⟩ B := rfl

theorem stockOf_update (s : Store) (book : Book) (b B n : Nat) (l : List BorrowLog) (m : Int)
    (hfind : Book.findByPk s b = some book) :
    stockOf ⟨s.books.map (fun x => if x.id == book.id then x.merge (stockPatch m) else x),
        l, s.nextBookId, n⟩ B
      = if b = B then m else stockOf s B := by
  have hid := findByPk_id hfind
  simp only [stockOf, Book.findByPk, find_map_merge]
  by_cases hb : b = B
  · subst hb
    have hfind' : s.books.find? (fun x => x.id == b) = some book := hfind
    simp [hfind', hid, merge_stockPatch]
  · cases h : s.books.find? (fun x => x.id == B) with
    | none => simp [hb]
    | some x =>
      have hx : x.id = B := by simpa using List.find?_some h
      have : ¬ B = b := fun e => hb e.symm
      simp [hb, hx, hid, this]

theorem exists_update (s : Store) (book : Book) (B n : Nat) (l : List BorrowLog) (m : Int) :
    (Book.findByPk ⟨s.books.map (fun x => if x.id == book.id then x.merge (stockPatch m) else x),
        l, s.nextBookId, n⟩ B).isSome = (Book.findByPk s B).isSome := by
  simp only [Book.findByPk, find_map_merge]
  cases s.books.find? (fun x => x.id == B) <;> rfl

theorem borrow_step_effect (env : Env) (s : Store) (req : Request) (B : Nat)
    (h0 : 0 ≤ stockOf s B) :
    0 ≤ stockOf (routePostBorrow env s req).1 B ∧
    stockOf (routePostBorrow env s req).1 B
        + ((if req.body.bookId = some B ∧ (routePostBorrow env s req).2.status = 201
            then 1 else 0 : Nat) : Int)
      = stockOf s B ∧
    logsFor (routePostBorrow env s req).1 B
      = logsFor s B
        + (if req.body.bookId = some B ∧ (routePostBorrow env s req).2.status = 201
            then 1 else 0)
        + (if req.body.bookId = some B ∧ (routePostBorrow env s req).2.status = 500
              ∧ env.createFails = none then 1 else 0) ∧
    (Book.findByPk (routePostBorrow env s req).1 B).isSome = (Book.findByPk s B).isSome := by
  by_cases hg : req.headers.role = some "user" ∧ truthy req.headers.userId = true
  swap
  · have : routePostBorrow env s req =
        (s, ⟨403, .message "Akses Ditolak: Harap kirim Header x-user-role: user & x-user-id!"⟩) := by
      simp [routePostBorrow, withGate, checkUser, hg]
    simp [this, h0]
  have hroute : routePostBorrow env s req
      = postBorrow env s { req with userId := req.headers.userId } := by
    simp [routePostBorrow, withGate, checkUser, hg]
  rw [hroute]
  cases hb : req.body.bookId with
  | none => simp [postBorrow, hb, h0]
  | some b =>
    cases hfind : Book.findByPk s b with
    | none => simp [postBorrow, hb, hfind, h0]
    | some book =>
      by_cases hstock : book.stock ≤ 0
      · simp [postBorrow, hb, hfind, hstock, h0]
      cases hc : env.createFails with
      | some e => simp [postBorrow, hb, hfind, hstock, BorrowLog.create, hc, h0]
      | none =>
        cases hu : env.updateFails with
        | some e =>
          have hout : postBorrow env s { req with userId := req.headers.userId } =
              (⟨s.books, s.logs ++ [⟨s.nextLogId, req.headers.userId, b, env.now,
                  req.body.latitude, req.body.longitude⟩], s.nextBookId, s.nextLogId + 1⟩,
               ⟨500, .error e⟩) := by
            simp [postBorrow, hb, hfind, hstock, BorrowLog.create, Book.update, hc, hu]
          rw [hout]
          refine ⟨h0, ?_, ?_, rfl⟩
          · simpa using stockOf_logs s.books _ s.logs s.nextBookId _ s.nextBookId s.nextLogId B
          · by_cases hbB : b = B <;> simp [logsFor, List.filter_append, hbB]
        | none =>
          have hpos : 0 < book.stock := not_le.mp hstock
          have hout := postBorrow_ok env s { req with userId := req.headers.userId } b book
            hb hfind hpos hc hu
          rw [hout]
          have hst := stockOf_update s book b B (s.nextLogId + 1)
            (s.logs ++ [⟨s.nextLogId, req.headers.userId, b, env.now,
                  req.body.latitude, req.body.longitude⟩]) (book.stock - 1) hfind
          have hex := exists_update s book B (s.nextLogId + 1)
            (s.logs ++ [⟨s.nextLogId, req.headers.userId, b, env.now,
                  req.body.latitude, req.body.longitude⟩]) (book.stock - 1)
          refine ⟨?_, ?_, ?_, hex⟩
          · rw [hst]
            split
            · omega
            · exact h0
          · rw [hst]
            by_cases hbB : b = B
            · subst hbB
              have : stockOf s b = book.stock := by simp [stockOf, hfind]
              simp [this]
            · simp [hbB]
          · by_cases hbB : b = B <;> simp [logsFor, List.filter_append, hbB]

theorem runTrace_cons (s : Store) (c : ApiCall) (cs : List ApiCall) :
    runTrace s (c :: cs)
      = ((runTrace (c.route.handler c.env s c.req).1 cs).1,
         (c, (c.route.handler c.env s c.req).2) :: (runTrace (c.route.handler c.env s c.req).1 cs).2) :=
  rfl

theorem runBorrows_cons (s : Store) (env : Env) (req : Request) (reqs : List (Env × Request)) :
    runBorrows s ((env, req) :: reqs)
      = ((runBorrows (routePostBorrow env s req).1 reqs).1,
         (⟨.borrow, env, req⟩, (routePostBorrow env s req).2)
           :: (runBorrows (routePostBorrow env s req).1 reqs).2) :=
  rfl

theorem successfulBorrows_cons (B : Nat) (c : ApiCall) (res : Response)
    (evs : List (ApiCall × Response)) :
    successfulBorrows B ((c, res) :: evs)
      = (if c.req.body.bookId = some B ∧ res.status = 201 then 1 else 0)
        + successfulBorrows B evs := by
  by_cases h : c.req.body.bookId = some B ∧ res.status = 201
  · simp [successfulBorrows, List.filter_cons, h, Nat.add_comm]
  · have h' : ¬ (c.req.body.bookId = some B ∧ res.status = 201) := h
    rw [if_neg h]
    simp only [successfulBorrows, List.filter_cons]
    rw [if_neg]
    · simp
    · simpa using h'

theorem orphanedBorrows_cons (B : Nat) (c : ApiCall) (res : Response)
    (evs : List (ApiCall × Response)) :
    orphanedBorrows B ((c, res) :: evs)
      = (if c.req.body.bookId = some B ∧ res.status = 500 ∧ c.env.createFails = none
          then 1 else 0)
        + orphanedBorrows B evs := by
  by_cases h : c.req.body.bookId = some B ∧ res.status = 500 ∧ c.env.createFails = none
  · simp [orphanedBorrows, List.filter_cons, h, Nat.add_comm]
  · rw [if_neg h]
    simp only [orphanedBorrows, List.filter_cons]
    rw [if_neg]
    · simp
    · simpa [and_assoc] using h

theorem runBorrows_effect (B : Nat) (reqs : List (Env × Request)) :
    ∀ s : Store, 0 ≤ stockOf s B →
      0 ≤ stockOf (runBorrows s reqs).1 B ∧
      stockOf (runBorrows s reqs).1 B + (successfulBorrows B (runBorrows s reqs).2 : Int)
        = stockOf s B ∧
      logsFor (runBorrows s reqs).1 B
        = logsFor s B + successfulBorrows B (runBorrows s reqs).2
          + orphanedBorrows B (runBorrows s reqs).2 ∧
      (Book.findByPk (runBorrows s reqs).1 B).isSome = (Book.findByPk s B).isSome := by
  induction reqs with
  | nil =>
    intro s h0
    simp [runBorrows, runTrace, successfulBorrows, orphanedBorrows, h0]
  | cons er reqs ih =>
    intro s h0
    obtain ⟨env, req⟩ := er
    obtain ⟨h1, h2, h3, h4⟩ := borrow_step_effect env s req B h0
    obtain ⟨i1, i2, i3, i4⟩ := ih (routePostBorrow env s req).1 h1
    rw [runBorrows_cons]
    simp only [successfulBorrows_cons, orphanedBorrows_cons]
    refine ⟨i1, ?_, ?_, i4.trans h4⟩
    · rw [← h2, ← i2]
      push_cast
      ring
    · rw [i3, h3]
      ring

/-- C9, as stated, fails when a stock write throws after its log was created: one borrow
of a book with stock 2 leaves stock 2 and one BorrowLog, so stock plus logs is 3. -/
theorem serial_borrows_counterexample :
    stockOf exStore 1 = 2 ∧ logsFor exStore 1 = 0 ∧
    stockOf (runBorrows exStore [(⟨5, 1, none, some "deadlock", none⟩, exBorrowReq 1)]).1 1 = 2 ∧
    logsFor (runBorrows exStore [(⟨5, 1, none, some "deadlock", none⟩, exBorrowReq 1)]).1 1 = 1 ∧
    stockOf (runBorrows exStore [(⟨5, 1, none, some "deadlock", none⟩, exBorrowReq 1)]).1 1
      + ((logsFor (runBorrows exStore [(⟨5, 1, none, some "deadlock", none⟩, exBorrowReq 1)]).1 1
          - logsFor exStore 1 : Nat) : Int) ≠ 2 := by
  decide

/-- C9 (amended): borrow requests handled one at a time, from a store in which book `B`
has stock `N ≥ 0`: afterwards `B` still exists with stock at least 0, its stock plus the
number of successful borrows of `B` is `N`, so that number is at most `N`; the BorrowLogs
created for `B` are the successful borrows plus the borrows whose stock write threw after
the log was created, and when there is no such borrow, stock plus created logs is `N`. -/
theorem serial_borrows_invariant (s : Store) (B : Nat) (book : Book)
    (reqs : List (Env × Request))
    (hfind : Book.findByPk s B = some book) (hN : 0 ≤ book.stock) :
    ∃ book', Book.findByPk (runBorrows s reqs).1 B = some book' ∧
      0 ≤ book'.stock ∧
      book'.stock + (successfulBorrows B (runBorrows s reqs).2 : Int) = book.stock ∧
      (successfulBorrows B (runBorrows s reqs).2 : Int) ≤ book.stock ∧
      logsFor (runBorrows s reqs).1 B
        = logsFor s B + successfulBorrows B (runBorrows s reqs).2
          + orphanedBorrows B (runBorrows s reqs).2 ∧
      (orphanedBorrows B (runBorrows s reqs).2 = 0 →
        book'.stock + ((logsFor (runBorrows s reqs).1 B - logsFor s B : Nat) : Int)
          = book.stock) := by
  have hs : stockOf s B = book.stock := by simp [stockOf, hfind]
  obtain ⟨h1, h2, h3, h4⟩ := runBorrows_effect B reqs s (by rw [hs]; exact hN)
  rw [hfind] at h4
  cases hf : Book.findByPk (runBorrows s reqs).1 B with
  | none => simp [hf] at h4
  | some book' =>
    have hs' : stockOf (runBorrows s reqs).1 B = book'.stock := by simp [stockOf, hf]
    rw [hs'] at h1 h2
    rw [hs] at h2
    refine ⟨book', rfl, h1, h2, by omega, h3, ?_⟩
    intro ho
    rw [h3, ho]
    have : logsFor s B + successfulBorrows B (runBorrows s reqs).2 + 0 - logsFor s B
        = successfulBorrows B (runBorrows s reqs).2 := by omega
    rw [this]
    exact h2

theorem serial_borrows_invariant_witness :
    ∃ book', Book.findByPk (runBorrows exStore
        [(Env.quiet 5 1, exBorrowReq 1), (Env.quiet 6 1, exBorrowReq 1),
         (Env.quiet 7 1, exBorrowReq 1)]).1 1 = some book' ∧ 0 ≤ book'.stock :=
  have ⟨b, h1, h2, _⟩ := serial_borrows_invariant exStore 1 ⟨1, "Dune", "Herbert", 2⟩
    [(Env.quiet 5 1, exBorrowReq 1), (Env.quiet 6 1, exBorrowReq 1),
     (Env.quiet 7 1, exBorrowReq 1)] (by decide) (by decide)
  ⟨b, h1, h2⟩

/-! ## Reading a book back after a sequence of calls -/

theorem fresh_map (s : Store) (f : Book → Book) (hf : ∀ b, (f b).id = b.id)
    (l : List BorrowLog) (n : Nat) (h : s.Fresh) :
    Store.Fresh ⟨s.books.map f, l, s.nextBookId, n⟩ := by
  intro b hb
  simp only [List.mem_map] at hb
  obtain ⟨a, ha, rfl⟩ := hb
  rw [hf a]
  exact h a ha

theorem step_listBooks (id : Nat) (env : Env) (s : Store) (req : Request) (h : s.Fresh) :
    (getBooks env s req).1.Fresh ∧
    Book.findByPk (getBooks env s req).1 id
      = writeOfWithBorrow id (Book.findByPk s id) ⟨.listBooks, env, req⟩ (getBooks env s req).2 := by
  simp [getBooks, writeOfWithBorrow, writeOf, h]

theorem step_listBorrows (id : Nat) (env : Env) (s : Store) (req : Request) (h : s.Fresh) :
    (getBorrows env s req).1.Fresh ∧
    Book.findByPk (getBorrows env s req).1 id
      = writeOfWithBorrow id (Book.findByPk s id) ⟨.listBorrows, env, req⟩
          (getBorrows env s req).2 := by
  simp [getBorrows, writeOfWithBorrow, writeOf, h]

theorem step_getBook (id : Nat) (env : Env) (s : Store) (req : Request) (h : s.Fresh) :
    (getBookById env s req).1.Fresh ∧
    Book.findByPk (getBookById env s req).1 id
      = writeOfWithBorrow id (Book.findByPk s id) ⟨.getBook, env, req⟩
          (getBookById env s req).2 := by
  unfold getBookById
  cases Book.findByPk s req.paramId <;> simp [writeOfWithBorrow, writeOf, h]

theorem step_createBook (id : Nat) (env : Env) (s : Store) (req : Request) (h : s.Fresh) :
    (routePostBooks env s req).1.Fresh ∧
    Book.findByPk (routePostBooks env s req).1 id
      = writeOfWithBorrow id (Book.findByPk s id) ⟨.createBook, env, req⟩
          (routePostBooks env s req).2 := by
  by_cases hg : req.headers.role = some "admin"
  swap
  · simp [routePostBooks, withGate, checkAdmin, hg, writeOfWithBorrow, writeOf, h]
  unfold routePostBooks
  rw [routeAdmin_gated postBooks env s req hg]
  by_cases hv : (!truthy req.body.title || !truthy req.body.author) = true
  · simp [postBooks, hv, writeOfWithBorrow, writeOf, h]
  cases hc : env.createFails with
  | some e => simp [postBooks, hv, Book.create, hc, writeOfWithBorrow, writeOf, h]
  | none =>
    have hout : postBooks env s req =
        (⟨s.books ++ [⟨s.nextBookId, req.body.title.getD "", req.body.author.getD "",
            req.body.stock.getD env.defaultStock⟩], s.logs, s.nextBookId + 1, s.nextLogId⟩,
         ⟨201, .bookData "Buku berhasil ditambah"
          ⟨s.nextBookId, req.body.title.getD "", req.body.author.getD "",
            req.body.stock.getD env.defaultStock⟩⟩) := by
      simp [postBooks, hv, Book.create, hc]
    rw [hout]
    constructor
    · intro b hb
      simp only [List.mem_append, List.mem_singleton] at hb
      rcases hb with hb | hb
      · exact Nat.lt_succ_of_lt (h b hb)
      · subst hb
        exact Nat.lt_succ_self _
    · simp only [Book.findByPk]
      rw [find_append_fresh]
      · simp [writeOfWithBorrow, writeOf]
      · intro x hx
        exact Nat.ne_of_lt (h x hx)

theorem step_updateBook (id : Nat) (env : Env) (s : Store) (req : Request) (h : s.Fresh) :
    (routePutBook env s req).1.Fresh ∧
    Book.findByPk (routePutBook env s req).1 id
      = writeOfWithBorrow id (Book.findByPk s id) ⟨.updateBook, env, req⟩
          (routePutBook env s req).2 := by
  by_cases hg : req.headers.role = some "admin"
  swap
  · simp [routePutBook, withGate, checkAdmin, hg, writeOfWithBorrow, writeOf, h]
  unfold routePutBook
  rw [routeAdmin_gated putBook env s req hg]
  cases hfind : Book.findByPk s req.paramId with
  | none => simp [putBook, hfind, writeOfWithBorrow, writeOf, h]
  | some book =>
    have hid := findByPk_id hfind
    cases hu : env.updateFails with
    | some e => simp [putBook, hfind, Book.update, hu, writeOfWithBorrow, writeOf, h]
    | none =>
      have hout : putBook env s req =
          (⟨s.books.map (fun b => if b.id == book.id then b.merge req.body else b), s.logs,
              s.nextBookId, s.nextLogId⟩,
           ⟨200, .bookData "Buku berhasil diupdate" (book.merge req.body)⟩) := by
        simp [putBook, hfind, Book.update, hu]
      rw [hout]
      constructor
      · apply fresh_map s _ _ s.logs s.nextLogId h
        intro b
        split <;> rfl
      · simp only [Book.findByPk, find_map_merge, writeOfWithBorrow, writeOf, merge_id]
        by_cases hbi : book.id = id
        · have hfind' : s.books.find? (fun b => b.id == id) = some book := by
            rw [← hbi, hid]
            exact hfind
          simp [hfind', hbi]
        · cases hx : s.books.find? (fun b => b.id == id) with
          | none => simp [hbi]
          | some x =>
            have hxid : x.id = id := by simpa using List.find?_some hx
            have : ¬ id = book.id := fun e => hbi e.symm
            simp [hbi, hxid, this]

theorem step_deleteBook (id : Nat) (env : Env) (s : Store) (req : Request) (h : s.Fresh) :
    (routeDeleteBook env s req).1.Fresh ∧
    Book.findByPk (routeDeleteBook env s req).1 id
      = writeOfWithBorrow id (Book.findByPk s id) ⟨.deleteBook, env, req⟩
          (routeDeleteBook env s req).2 := by
  by_cases hg : req.headers.role = some "admin"
  swap
  · simp [routeDeleteBook, withGate, checkAdmin, hg, writeOfWithBorrow, writeOf, h]
  unfold routeDeleteBook
  rw [routeAdmin_gated deleteBook env s req hg]
  cases hfind : Book.findByPk s req.paramId with
  | none => simp [deleteBook, hfind, writeOfWithBorrow, writeOf, h]
  | some book =>
    have hid := findByPk_id hfind
    cases hd : env.destroyFails with
    | some e => simp [deleteBook, hfind, Book.destroy, hd, writeOfWithBorrow, writeOf, h]
    | none =>
      have hout : deleteBook env s req =
          (⟨s.books.filter (fun b => b.id != req.paramId), s.logs, s.nextBookId, s.nextLogId⟩,
           ⟨200, .message "Buku berhasil dihapus"⟩) := by
        simp [deleteBook, hfind, Book.destroy, hd, hid]
      rw [hout]
      constructor
      · intro b hb
        exact h b (List.mem_of_mem_filter hb)
      · simp only [Book.findByPk, find_filter_ne, writeOfWithBorrow, writeOf]
        by_cases hpi : req.paramId = id
        · simp [hpi]
        · have : ¬ id = req.paramId := fun e => hpi e.symm
          simp [hpi, this]

theorem step_borrow (id : Nat) (env : Env) (s : Store) (req : Request) (h : s.Fresh) :
    (routePostBorrow env s req).1.Fresh ∧
    Book.findByPk (routePostBorrow env s req).1 id
      = writeOfWithBorrow id (Book.findByPk s id) ⟨.borrow, env, req⟩
          (routePostBorrow env s req).2 := by
  by_cases hg : req.headers.role = some "user" ∧ truthy req.headers.userId = true
  swap
  · simp [routePostBorrow, withGate, checkUser, hg, writeOfWithBorrow, writeOf, h]
  have hroute : routePostBorrow env s req
      = postBorrow env s { req with userId := req.headers.userId } := by
    simp [routePostBorrow, withGate, checkUser, hg]
  rw [hroute]
  cases hb : req.body.bookId with
  | none => simp [postBorrow, hb, writeOfWithBorrow, writeOf, h]
  | some b =>
    cases hfind : Book.findByPk s b with
    | none => simp [postBorrow, hb, hfind, writeOfWithBorrow, writeOf, h]
    | some book =>
      have hid := findByPk_id hfind
      by_cases hstock : book.stock ≤ 0
      · simp [postBorrow, hb, hfind, hstock, writeOfWithBorrow, writeOf, h]
      cases hc : env.createFails with
      | some e =>
        simp [postBorrow, hb, hfind, hstock, BorrowLog.create, hc, writeOfWithBorrow, writeOf, h]
      | none =>
        cases hu : env.updateFails with
        | some e =>
          have hout : postBorrow env s { req with userId := req.headers.userId } =
              (⟨s.books, s.logs ++ [⟨s.nextLogId, req.headers.userId, b, env.now,
                  req.body.latitude, req.body.longitude⟩], s.nextBookId, s.nextLogId + 1⟩,
               ⟨500, .error e⟩) := by
            simp [postBorrow, hb, hfind, hstock, BorrowLog.create, Book.update, hc, hu]
          rw [hout]
          refine ⟨h, ?_⟩
          simp [writeOfWithBorrow, writeOf, Book.findByPk]
        | none =>
          have hpos : 0 < book.stock := not_le.mp hstock
          rw [postBorrow_ok env s { req with userId := req.headers.userId } b book
            hb hfind hpos hc hu]
          constructor
          · apply fresh_map s _ _ _ _ h
            intro x
            split <;> rfl
          · simp only [Book.findByPk, find_map_merge, writeOfWithBorrow]
            by_cases hbi : b = id
            · have hfind' : s.books.find? (fun x => x.id == id) = some book := by
                rw [← hbi]
                exact hfind
              simp [hfind', hbi, hid, merge_stockPatch]
            · cases hx : s.books.find? (fun x => x.id == id) with
              | none => simp [hbi]
              | some x =>
                have hxid : x.id = id := by simpa using List.find?_some hx
                have : ¬ id = b := fun e => hbi e.symm
                simp [hbi, hxid, hid, this]

theorem step_any (id : Nat) (c : ApiCall) (s : Store) (h : s.Fresh) :
    (c.route.handler c.env s c.req).1.Fresh ∧
    Book.findByPk (c.route.handler c.env s c.req).1 id
      = writeOfWithBorrow id (Book.findByPk s id) c (c.route.handler c.env s c.req).2 := by
  obtain ⟨route, env, req⟩ := c
  cases route
  · exact step_listBooks id env s req h
  · exact step_getBook id env s req h
  · exact step_createBook id env s req h
  · exact step_updateBook id env s req h
  · exact step_deleteBook id env s req h
  · exact step_borrow id env s req h
  · exact step_listBorrows id env s req h

theorem runTrace_lastWritten (id : Nat) (calls : List ApiCall) :
    ∀ s : Store, s.Fresh →
      Book.findByPk (runTrace s calls).1 id
        = lastWrittenWithBorrows id (Book.findByPk s id) (runTrace s calls).2 := by
  induction calls with
  | nil =>
    intro s _
    rfl
  | cons c cs ih =>
    intro s h
    obtain ⟨h1, h2⟩ := step_any id c s h
    rw [runTrace_cons]
    simp only [lastWrittenWithBorrows, List.foldl_cons]
    rw [← h2]
    exact ih _ h1

/-- C7, as stated, fails after a borrow: in the specification's example scenario (create
"Dune" with stock 2, then one borrow, both answered 201) the record written by the last
successful create/update of id 1 has stock 2, while `GET /api/books/1` returns stock 1. -/
theorem get_after_borrow_counterexample :
    (runTrace exEmpty exScenario).2.map (fun cr => cr.2.status) = [201, 201] ∧
    lastWritten 1 (Book.findByPk exEmpty 1) (runTrace exEmpty exScenario).2
      = some ⟨1, "Dune", "Herbert", 2⟩ ∧
    (getBookById (Env.quiet 9 1) (runTrace exEmpty exScenario).1 (idRequest 1)).2
      = ⟨200, .book ⟨1, "Dune", "Herbert", 1⟩⟩ ∧
    (getBookById (Env.quiet 9 1) (runTrace exEmpty exScenario).1 (idRequest 1)).2
      ≠ getAnswer (lastWritten 1 (Book.findByPk exEmpty 1) (runTrace exEmpty exScenario).2) := by
  decide

/-- C7 (amended): after every sequence of API calls handled one at a time, from a store
whose identifiers are below the auto-increment counter, `GET /api/books/:id` returns the
record most recently written by the last successful create, update or borrow of that id
(a borrow lowers the stock of the record by one), or answers 404 when the id was deleted
or never created; the store is left as it is. -/
theorem get_returns_last_written (s : Store) (calls : List ApiCall) (id : Nat) (env : Env)
    (hfresh : s.Fresh) :
    getBookById env (runTrace s calls).1 (idRequest id)
      = ((runTrace s calls).1,
         getAnswer (lastWrittenWithBorrows id (Book.findByPk s id) (runTrace s calls).2)) := by
  rw [← runTrace_lastWritten id calls s hfresh]
  simp only [getBookById, idRequest]
  cases Book.findByPk (runTrace s calls).1 id <;> rfl

theorem get_returns_last_written_witness :
    getBookById (Env.quiet 9 1) (runTrace exEmpty exScenario).1 (idRequest 1)
      = ((runTrace exEmpty exScenario).1,
         getAnswer (lastWrittenWithBorrows 1 (Book.findByPk exEmpty 1)
          (runTrace exEmpty exScenario).2)) :=
  get_returns_last_written exEmpty exScenario 1 (Env.quiet 9 1) (by decide)

/-! ## Two borrow requests racing for the last copy -/

theorem borrowStep_serial (env : Env) (s : Store) (req : Request) :
    borrowStep env req
        (borrowStep env req (borrowStep env req s .lookup).1 (borrowStep env req s .lookup).2).1
        (borrowStep env req (borrowStep env req s .lookup).1 (borrowStep env req s .lookup).2).2
      = ((postBorrow env s req).1, .done (postBorrow env s req).2) := by
  simp only [borrowStep, postBorrow]
  cases req.body.bookId.bind (Book.findByPk s) with
  | none => rfl
  | some book =>
    by_cases hstock : book.stock ≤ 0
    · simp [hstock, borrowStep]
    · simp only [hstock, if_false, borrowStep]
      cases hc : BorrowLog.create env s req.userId (req.body.bookId.getD 0) env.now
          req.body.latitude req.body.longitude with
      | error e => simp [borrowStep]
      | ok v =>
        obtain ⟨s₁, log⟩ := v
        simp only [borrowStep]
        cases hu : Book.update env s₁ book (stockPatch (book.stock - 1)) with
        | error e => simp
        | ok w => simp

theorem stockOf_map_patch (books : List Book) (l : List BorrowLog) (a n : Nat) (target B : Nat)
    (m : Int) (s : Store) (hs : s.books = books)
    (hex : (Book.findByPk s B).isSome = true) (ht : target = B) :
    stockOf ⟨books.map (fun x => if x.id == target then x.merge (stockPatch m) else x), l, a, n⟩ B
      = m := by
  subst hs
  simp only [stockOf, Book.findByPk, find_map_merge]
  cases h : s.books.find? (fun x => x.id == B) with
  | none => simp [Book.findByPk, h] at hex
  | some x =>
    have hx : x.id = B := by simpa using List.find?_some h
    simp [hx, ht, merge_stockPatch]

theorem borrowStep_inv (env : Env) (req : Request) (s : Store) (pc : BorrowPc) (B : Nat)
    (other : Prop) [Decidable other]
    (hbody : req.body.bookId = some B)
    (hc : env.createFails = none) (hu : env.updateFails = none)
    (hv : pc.Valid B) (hex : (Book.findByPk s B).isSome = true)
    (hst : stockOf s B = if pc.status = 201 ∨ other then 0 else 1)
    (h400 : pc.status = 400 → other) :
    (borrowStep env req s pc).2.Valid B ∧
    (Book.findByPk (borrowStep env req s pc).1 B).isSome = true ∧
    stockOf (borrowStep env req s pc).1 B
      = (if (borrowStep env req s pc).2.status = 201 ∨ other then 0 else 1) ∧
    ((borrowStep env req s pc).2.status = 400 → other) ∧
    (borrowStep env req s pc).1.logs.length + pc.holdsLog
      = s.logs.length + (borrowStep env req s pc).2.holdsLog ∧
    (pc.status = 201 → (borrowStep env req s pc).2.status = 201) := by
  cases pc with
  | lookup =>
    cases hfind : Book.findByPk s B with
    | none => simp [hfind] at hex
    | some book =>
      have hid := findByPk_id hfind
      have hsb : stockOf s B = book.stock := by simp [stockOf, hfind]
      simp only [BorrowPc.status] at hst h400
      by_cases ho : other
      · have h0 : book.stock = 0 := by rw [← hsb, hst]; simp [ho]
        simp [borrowStep, hbody, hfind, h0, BorrowPc.Valid, BorrowPc.status, BorrowPc.holdsLog,
          ho, hsb]
      · have h1 : book.stock = 1 := by rw [← hsb, hst]; simp [ho]
        simp [borrowStep, hbody, hfind, h1, BorrowPc.Valid, BorrowPc.status, BorrowPc.holdsLog,
          ho, hsb, hid]
  | creating book =>
    simp only [BorrowPc.status] at hst h400
    have hsb : stockOf s B = if other then 0 else 1 := by simpa using hst
    simp only [borrowStep, BorrowLog.create, hc, BorrowPc.Valid, BorrowPc.status,
      BorrowPc.holdsLog]
    refine ⟨hv, hex, ?_, ?_, ?_, ?_⟩
    · simpa using hsb
    · simp
    · simp
    · simp
  | updating book log =>
    obtain ⟨hid, hs1⟩ := hv
    simp only [borrowStep, Book.update, hu, BorrowPc.Valid, BorrowPc.status, BorrowPc.holdsLog]
    refine ⟨by simp, ?_, ?_, ?_, ?_, ?_⟩
    · exact (exists_update s book B s.nextLogId s.logs (book.stock - 1)).trans hex
    · rw [stockOf_map_patch s.books s.logs s.nextBookId s.nextLogId book.id B _ s rfl hex hid]
      simp [hs1]
    · simp
    · simp
    · simp
  | done res =>
    exact ⟨hv, hex, hst, h400, rfl, fun h => h⟩

theorem sysStep_first (env₁ env₂ : Env) (r₁ r₂ : Request) (σ : Sys) :
    sysStep env₁ env₂ r₁ r₂ σ true
      = ⟨(borrowStep env₁ r₁ σ.store σ.pc₁).1, (borrowStep env₁ r₁ σ.store σ.pc₁).2, σ.pc₂⟩ := rfl

theorem sysStep_second (env₁ env₂ : Env) (r₁ r₂ : Request) (σ : Sys) :
    sysStep env₁ env₂ r₁ r₂ σ false
      = ⟨(borrowStep env₂ r₂ σ.store σ.pc₂).1, σ.pc₁, (borrowStep env₂ r₂ σ.store σ.pc₂).2⟩ := rfl

theorem raceInv_step (env₁ env₂ : Env) (r₁ r₂ : Request) (B n : Nat) (σ : Sys) (first : Bool)
    (hb₁ : r₁.body.bookId = some B) (hb₂ : r₂.body.bookId = some B)
    (hc₁ : env₁.createFails = none) (hu₁ : env₁.updateFails = none)
    (hc₂ : env₂.createFails = none) (hu₂ : env₂.updateFails = none)
    (h : RaceInv B n σ) : RaceInv B n (sysStep env₁ env₂ r₁ r₂ σ first) := by
  obtain ⟨v₁, v₂, hex, hst, f₁, f₂, hl⟩ := h
  cases first with
  | true =>
    rw [sysStep_first]
    obtain ⟨a, b, c, d, e, f⟩ :=
      borrowStep_inv env₁ r₁ σ.store σ.pc₁ B (σ.pc₂.status = 201) hb₁ hc₁ hu₁ v₁ hex hst f₁
    exact ⟨a, v₂, b, c, d, fun h => f (f₂ h), by simp only; omega⟩
  | false =>
    rw [sysStep_second]
    have hst' : stockOf σ.store B = if σ.pc₂.status = 201 ∨ σ.pc₁.status = 201 then 0 else 1 := by
      rw [hst]
      simp only [or_comm]
    obtain ⟨a, b, c, d, e, f⟩ :=
      borrowStep_inv env₂ r₂ σ.store σ.pc₂ B (σ.pc₁.status = 201) hb₂ hc₂ hu₂ v₂ hex hst' f₂
    refine ⟨v₁, a, b, ?_, fun h => f (f₁ h), d, by simp only; omega⟩
    rw [c]
    simp only [or_comm]

theorem raceInv_run (env₁ env₂ : Env) (r₁ r₂ : Request) (B n : Nat) (sched : List Bool)
    (hb₁ : r₁.body.bookId = some B) (hb₂ : r₂.body.bookId = some B)
    (hc₁ : env₁.createFails = none) (hu₁ : env₁.updateFails = none)
    (hc₂ : env₂.createFails = none) (hu₂ : env₂.updateFails = none) :
    ∀ σ : Sys, RaceInv B n σ → RaceInv B n (runSchedule env₁ env₂ r₁ r₂ σ sched) := by
  induction sched with
  | nil =>
    intro σ h
    exact h
  | cons b bs ih =>
    intro σ h
    exact ih _ (raceInv_step env₁ env₂ r₁ r₂ B n σ b hb₁ hb₂ hc₁ hu₁ hc₂ hu₂ h)

theorem raceInv_init (s : Store) (B : Nat) (book : Book)
    (hfind : Book.findByPk s B = some book) (hstock : book.stock = 1) :
    RaceInv B s.logs.length (Sys.init s) := by
  simp [RaceInv, Sys.init, BorrowPc.Valid, BorrowPc.status, BorrowPc.holdsLog, stockOf, hfind,
    hstock]

theorem borrowStep_rank (env : Env) (req : Request) (s : Store) (pc : BorrowPc) :
    min 3 (pc.rank + 1) ≤ (borrowStep env req s pc).2.rank := by
  cases pc with
  | lookup =>
    simp only [borrowStep]
    cases req.body.bookId.bind (Book.findByPk s) with
    | none => simp [BorrowPc.rank]
    | some book =>
      by_cases hstock : book.stock ≤ 0 <;> simp [hstock, BorrowPc.rank]
  | creating book =>
    simp only [borrowStep]
    split <;> simp [BorrowPc.rank]
  | updating book log =>
    simp only [borrowStep]
    split <;> simp [BorrowPc.rank]
  | done res => simp [borrowStep, BorrowPc.rank]

theorem rank_done (pc : BorrowPc) (h : 3 ≤ pc.rank) : ∃ res, pc = .done res := by
  cases pc with
  | done res => exact ⟨res, rfl⟩
  | lookup => simp [BorrowPc.rank] at h
  | creating book => simp [BorrowPc.rank] at h
  | updating book log => simp [BorrowPc.rank] at h

theorem run_rank (env₁ env₂ : Env) (r₁ r₂ : Request) (sched : List Bool) :
    ∀ σ : Sys,
      min 3 (σ.pc₁.rank + sched.count true) ≤ (runSchedule env₁ env₂ r₁ r₂ σ sched).pc₁.rank ∧
      min 3 (σ.pc₂.rank + sched.count false) ≤ (runSchedule env₁ env₂ r₁ r₂ σ sched).pc₂.rank := by
  induction sched with
  | nil =>
    intro σ
    simp [runSchedule]
  | cons b bs ih =>
    intro σ
    obtain ⟨i₁, i₂⟩ := ih (sysStep env₁ env₂ r₁ r₂ σ b)
    have e : runSchedule env₁ env₂ r₁ r₂ σ (b :: bs)
        = runSchedule env₁ env₂ r₁ r₂ (sysStep env₁ env₂ r₁ r₂ σ b) bs := rfl
    rw [e]
    cases b with
    | true =>
      have hr := borrowStep_rank env₁ r₁ σ.store σ.pc₁
      rw [sysStep_first] at i₁ i₂ ⊢
      simp only [List.count_cons_self, List.count_cons_of_ne (by decide : (true : Bool) ≠ false)]
        at i₁ i₂ ⊢
      constructor
      · omega
      · exact i₂
    | false =>
      have hr := borrowStep_rank env₂ r₂ σ.store σ.pc₂
      rw [sysStep_second] at i₁ i₂ ⊢
      simp only [List.count_cons_self, List.count_cons_of_ne (by decide : (false : Bool) ≠ true)]
        at i₁ i₂ ⊢
      constructor
      · exact i₁
      · omega

theorem lookup_exhausted (env : Env) (req : Request) (s : Store) (B : Nat)
    (hbody : req.body.bookId = some B) (hex : (Book.findByPk s B).isSome = true)
    (h0 : stockOf s B = 0) :
    borrowStep env req s .lookup
      = (s, .done ⟨400, .message "Buku habis atau tidak ditemukan"⟩) := by
  cases hfind : Book.findByPk s B with
  | none => simp [hfind] at hex
  | some book =>
    have : book.stock = 0 := by simpa [stockOf, hfind] using h0
    simp [borrowStep, hbody, hfind, this]

theorem done_status_of_first (B n : Nat) (σ : Sys) (h : RaceInv B n σ) (hr : 3 ≤ σ.pc₁.rank)
    (hp : σ.pc₂ = .lookup) : σ.pc₁.status = 201 ∧ stockOf σ.store B = 0 := by
  obtain ⟨v₁, _, _, hst, f₁, _, _⟩ := h
  obtain ⟨res, hres⟩ := rank_done σ.pc₁ hr
  rw [hres] at v₁ f₁ hst ⊢
  rw [hp] at f₁ hst
  simp only [BorrowPc.Valid, BorrowPc.status] at v₁ f₁ hst ⊢
  rcases v₁ with v | v
  · exact ⟨v, by simpa [v] using hst⟩
  · exact absurd (f₁ v) (by decide)

theorem done_status_of_second (B n : Nat) (σ : Sys) (h : RaceInv B n σ) (hr : 3 ≤ σ.pc₂.rank)
    (hp : σ.pc₁ = .lookup) : σ.pc₂.status = 201 ∧ stockOf σ.store B = 0 := by
  obtain ⟨_, v₂, _, hst, _, f₂, _⟩ := h
  obtain ⟨res, hres⟩ := rank_done σ.pc₂ hr
  rw [hres] at v₂ f₂ hst ⊢
  rw [hp] at f₂ hst
  simp only [BorrowPc.Valid, BorrowPc.status] at v₂ f₂ hst ⊢
  rcases v₂ with v | v
  · exact ⟨v, by simpa [v] using hst⟩
  · exact absurd (f₂ v) (by decide)

theorem status_of_rank (pc : BorrowPc) (h : pc.rank ≤ 2) : pc.status = 0 := by
  cases pc with
  | done res => simp [BorrowPc.rank] at h
  | lookup => rfl
  | creating book => rfl
  | updating book log => rfl

theorem done_of_status (pc : BorrowPc) (h : pc.status ≠ 0) : ∃ res, pc = .done res := by
  cases pc with
  | done res => exact ⟨res, rfl⟩
  | lookup => exact absurd rfl h
  | creating book => exact absurd rfl h
  | updating book log => exact absurd rfl h

theorem borrowStep_early (env : Env) (req : Request) (s : Store) (pc : BorrowPc) (B : Nat)
    (hbody : req.body.bookId = some B) (hc : env.createFails = none)
    (hex : (Book.findByPk s B).isSome = true) (hst : stockOf s B = 1) (hr : pc.rank ≤ 1) :
    (borrowStep env req s pc).2.rank = pc.rank + 1 := by
  cases pc with
  | lookup =>
    cases hfind : Book.findByPk s B with
    | none => simp [hfind] at hex
    | some book =>
      have h1 : book.stock = 1 := by simpa [stockOf, hfind] using hst
      simp [borrowStep, hbody, hfind, h1, BorrowPc.rank]
  | creating book => simp [borrowStep, BorrowLog.create, hc, BorrowPc.rank]
  | updating book log => simp [BorrowPc.rank] at hr
  | done res => simp [BorrowPc.rank] at hr

theorem early_ranks (env₁ env₂ : Env) (r₁ r₂ : Request) (B n : Nat) (sched : List Bool)
    (hb₁ : r₁.body.bookId = some B) (hb₂ : r₂.body.bookId = some B)
    (hc₁ : env₁.createFails = none) (hu₁ : env₁.updateFails = none)
    (hc₂ : env₂.createFails = none) (hu₂ : env₂.updateFails = none) :
    ∀ σ : Sys, RaceInv B n σ → σ.pc₁.rank + sched.count true ≤ 2 →
      σ.pc₂.rank + sched.count false ≤ 2 →
      (runSchedule env₁ env₂ r₁ r₂ σ sched).pc₁.rank = σ.pc₁.rank + sched.count true ∧
      (runSchedule env₁ env₂ r₁ r₂ σ sched).pc₂.rank = σ.pc₂.rank + sched.count false := by
  induction sched with
  | nil =>
    intro σ _ _ _
    simp [runSchedule]
  | cons b bs ih =>
    intro σ h k₁ k₂
    have hnext := raceInv_step env₁ env₂ r₁ r₂ B n σ b hb₁ hb₂ hc₁ hu₁ hc₂ hu₂ h
    have e : runSchedule env₁ env₂ r₁ r₂ σ (b :: bs)
        = runSchedule env₁ env₂ r₁ r₂ (sysStep env₁ env₂ r₁ r₂ σ b) bs := rfl
    obtain ⟨_, _, hex, hst, _, _, _⟩ := h
    have s₁ : σ.pc₁.status = 0 := status_of_rank _ (by omega)
    have s₂ : σ.pc₂.status = 0 := status_of_rank _ (by omega)
    have hone : stockOf σ.store B = 1 := by simpa [s₁, s₂] using hst
    rw [e]
    cases b with
    | true =>
      have ct : (true :: bs).count true = bs.count true + 1 := by simp
      have cf : (true :: bs).count false = bs.count false := by simp
      rw [ct] at k₁ ⊢
      rw [cf] at k₂ ⊢
      have hr := borrowStep_early env₁ r₁ σ.store σ.pc₁ B hb₁ hc₁ hex hone (by omega)
      have i := ih (sysStep env₁ env₂ r₁ r₂ σ true) hnext
        (by rw [sysStep_first]; simp only; omega) (by rw [sysStep_first]; simp only; omega)
      rw [sysStep_first] at i ⊢
      simp only at i
      omega
    | false =>
      have ct : (false :: bs).count true = bs.count true := by simp
      have cf : (false :: bs).count false = bs.count false + 1 := by simp
      rw [ct] at k₁ ⊢
      rw [cf] at k₂ ⊢
      have hr := borrowStep_early env₂ r₂ σ.store σ.pc₂ B hb₂ hc₂ hex hone (by omega)
      have i := ih (sysStep env₁ env₂ r₁ r₂ σ false) hnext
        (by rw [sysStep_second]; simp only; omega) (by rw [sysStep_second]; simp only; omega)
      rw [sysStep_second] at i ⊢
      simp only at i
      omega

theorem borrowStep_noFail (env : Env) (req : Request) (s : Store) (pc : BorrowPc)
    (hc : env.createFails = none) (hu : env.updateFails = none)
    (hr : 1 ≤ pc.rank) (h4 : pc.status ≠ 400) :
    1 ≤ (borrowStep env req s pc).2.rank ∧ (borrowStep env req s pc).2.status ≠ 400 := by
  cases pc with
  | lookup => simp [BorrowPc.rank] at hr
  | creating book => simp [borrowStep, BorrowLog.create, hc, BorrowPc.rank, BorrowPc.status]
  | updating book log => simp [borrowStep, Book.update, hu, BorrowPc.rank, BorrowPc.status]
  | done res => exact ⟨hr, h4⟩

theorem noFail_run (env₁ env₂ : Env) (r₁ r₂ : Request) (sched : List Bool)
    (hc₁ : env₁.createFails = none) (hu₁ : env₁.updateFails = none)
    (hc₂ : env₂.createFails = none) (hu₂ : env₂.updateFails = none) :
    ∀ σ : Sys, 1 ≤ σ.pc₁.rank → σ.pc₁.status ≠ 400 → 1 ≤ σ.pc₂.rank → σ.pc₂.status ≠ 400 →
      (runSchedule env₁ env₂ r₁ r₂ σ sched).pc₁.status ≠ 400 ∧
      (runSchedule env₁ env₂ r₁ r₂ σ sched).pc₂.status ≠ 400 := by
  induction sched with
  | nil =>
    intro σ _ a _ b
    exact ⟨a, b⟩
  | cons t ts ih =>
    intro σ a₁ a₂ b₁ b₂
    have e : runSchedule env₁ env₂ r₁ r₂ σ (t :: ts)
        = runSchedule env₁ env₂ r₁ r₂ (sysStep env₁ env₂ r₁ r₂ σ t) ts := rfl
    rw [e]
    cases t with
    | true =>
      obtain ⟨x, y⟩ := borrowStep_noFail env₁ r₁ σ.store σ.pc₁ hc₁ hu₁ a₁ a₂
      exact ih _ (by rw [sysStep_first]; exact x) (by rw [sysStep_first]; exact y)
        (by rw [sysStep_first]; exact b₁) (by rw [sysStep_first]; exact b₂)
    | false =>
      obtain ⟨x, y⟩ := borrowStep_noFail env₂ r₂ σ.store σ.pc₂ hc₂ hu₂ b₁ b₂
      exact ih _ (by rw [sysStep_second]; exact a₁) (by rw [sysStep_second]; exact a₂)
        (by rw [sysStep_second]; exact x) (by rw [sysStep_second]; exact y)

theorem first_won_run (env₁ env₂ : Env) (r₁ r₂ : Request) (B n : Nat) (sched : List Bool)
    (hb₁ : r₁.body.bookId = some B) (hb₂ : r₂.body.bookId = some B)
    (hc₁ : env₁.createFails = none) (hu₁ : env₁.updateFails = none)
    (hc₂ : env₂.createFails = none) (hu₂ : env₂.updateFails = none) :
    ∀ σ : Sys, RaceInv B n σ → σ.pc₁.status = 201 →
      (σ.pc₂ = .lookup ∨ σ.pc₂.status = 400) →
      (runSchedule env₁ env₂ r₁ r₂ σ sched).pc₁.status = 201 ∧
      ((runSchedule env₁ env₂ r₁ r₂ σ sched).pc₂ = .lookup ∨
        (runSchedule env₁ env₂ r₁ r₂ σ sched).pc₂.status = 400) := by
  induction sched with
  | nil =>
    intro σ _ a b
    exact ⟨a, b⟩
  | cons t ts ih =>
    intro σ h a b
    have hnext := raceInv_step env₁ env₂ r₁ r₂ B n σ t hb₁ hb₂ hc₁ hu₁ hc₂ hu₂ h
    have e : runSchedule env₁ env₂ r₁ r₂ σ (t :: ts)
        = runSchedule env₁ env₂ r₁ r₂ (sysStep env₁ env₂ r₁ r₂ σ t) ts := rfl
    rw [e]
    apply ih _ hnext
    · cases t with
      | true =>
        obtain ⟨res, hres⟩ := done_of_status σ.pc₁ (by rw [a]; decide)
        rw [sysStep_first, hres]
        rw [hres] at a
        exact a
      | false =>
        rw [sysStep_second]
        exact a
    · cases t with
      | true =>
        rw [sysStep_first]
        exact b
      | false =>
        rw [sysStep_second]
        obtain ⟨_, _, hex, hst, _, _, _⟩ := h
        have h0 : stockOf σ.store B = 0 := by simpa [a] using hst
        rcases b with b | b
        · rw [b, lookup_exhausted env₂ r₂ σ.store B hb₂ hex h0]
          exact Or.inr rfl
        · obtain ⟨res, hres⟩ := done_of_status σ.pc₂ (by rw [b]; decide)
          rw [hres] at b ⊢
          exact Or.inr b

theorem second_won_run (env₁ env₂ : Env) (r₁ r₂ : Request) (B n : Nat) (sched : List Bool)
    (hb₁ : r₁.body.bookId = some B) (hb₂ : r₂.body.bookId = some B)
    (hc₁ : env₁.createFails = none) (hu₁ : env₁.updateFails = none)
    (hc₂ : env₂.createFails = none) (hu₂ : env₂.updateFails = none) :
    ∀ σ : Sys, RaceInv B n σ → σ.pc₂.status = 201 →
      (σ.pc₁ = .lookup ∨ σ.pc₁.status = 400) →
      (runSchedule env₁ env₂ r₁ r₂ σ sched).pc₂.status = 201 ∧
      ((runSchedule env₁ env₂ r₁ r₂ σ sched).pc₁ = .lookup ∨
        (runSchedule env₁ env₂ r₁ r₂ σ sched).pc₁.status = 400) := by
  induction sched with
  | nil =>
    intro σ _ a b
    exact ⟨a, b⟩
  | cons t ts ih =>
    intro σ h a b
    have hnext := raceInv_step env₁ env₂ r₁ r₂ B n σ t hb₁ hb₂ hc₁ hu₁ hc₂ hu₂ h
    have e : runSchedule env₁ env₂ r₁ r₂ σ (t :: ts)
        = runSchedule env₁ env₂ r₁ r₂ (sysStep env₁ env₂ r₁ r₂ σ t) ts := rfl
    rw [e]
    apply ih _ hnext
    · cases t with
      | false =>
        obtain ⟨res, hres⟩ := done_of_status σ.pc₂ (by rw [a]; decide)
        rw [sysStep_second, hres]
        rw [hres] at a
        exact a
      | true =>
        rw [sysStep_first]
        exact a
    · cases t with
      | false =>
        rw [sysStep_second]
        exact b
      | true =>
        rw [sysStep_first]
        obtain ⟨_, _, hex, hst, _, _, _⟩ := h
        have h0 : stockOf σ.store B = 0 := by simpa [a] using hst
        rcases b with b | b
        · rw [b, lookup_exhausted env₁ r₁ σ.store B hb₁ hex h0]
          exact Or.inr rfl
        · obtain ⟨res, hres⟩ := done_of_status σ.pc₁ (by rw [b]; decide)
          rw [hres] at b ⊢
          exact Or.inr b

theorem idle_run (env₁ env₂ : Env) (r₁ r₂ : Request) (sched : List Bool) :
    ∀ σ : Sys,
      (sched.count true = 0 → (runSchedule env₁ env₂ r₁ r₂ σ sched).pc₁ = σ.pc₁) ∧
      (sched.count false = 0 → (runSchedule env₁ env₂ r₁ r₂ σ sched).pc₂ = σ.pc₂) := by
  induction sched with
  | nil =>
    intro σ
    exact ⟨fun _ => rfl, fun _ => rfl⟩
  | cons t ts ih =>
    intro σ
    have e : runSchedule env₁ env₂ r₁ r₂ σ (t :: ts)
        = runSchedule env₁ env₂ r₁ r₂ (sysStep env₁ env₂ r₁ r₂ σ t) ts := rfl
    obtain ⟨i₁, i₂⟩ := ih (sysStep env₁ env₂ r₁ r₂ σ t)
    rw [e]
    cases t with
    | true =>
      constructor
      · intro h
        simp at h
      · intro h
        have : ts.count false = 0 := by simpa using h
        rw [i₂ this, sysStep_first]
    | false =>
      constructor
      · intro h
        have : ts.count true = 0 := by simpa using h
        rw [i₁ this, sysStep_second]
      · intro h
        simp at h

theorem serial_shape (l : List Bool) (h : lookupsBeforeWrites l = false)
    (ht : 1 ≤ l.count true) (hf : 1 ≤ l.count false) :
    (∃ rest, l = true :: true :: true :: rest) ∨ (∃ rest, l = false :: false :: false :: rest) := by
  have hp : ∀ pre, pre <+: l → bothInFlight pre = false := by
    intro pre hpre
    have := List.any_eq_false.mp h pre ((List.mem_inits pre l).mpr hpre)
    simpa using this
  rcases l with _ | ⟨x, _ | ⟨y, _ | ⟨z, rest⟩⟩⟩
  · simp at ht
  · cases x <;> simp at ht hf
  · cases x <;> cases y
    · simp at ht
    · exact absurd (hp [false, true] (List.prefix_refl _)) (by decide)
    · exact absurd (hp [true, false] (List.prefix_refl _)) (by decide)
    · simp at hf
  · cases x <;> cases y
    · cases z
      · exact Or.inr ⟨rest, rfl⟩
      · exact absurd (hp [false, false, true] (List.prefix_append _ rest)) (by decide)
    · exact absurd (hp [false, true] (List.prefix_append _ (z :: rest))) (by decide)
    · exact absurd (hp [true, false] (List.prefix_append _ (z :: rest))) (by decide)
    · cases z
      · exact absurd (hp [true, true, false] (List.prefix_append _ rest)) (by decide)
      · exact Or.inl ⟨rest, rfl⟩

theorem run_append (env₁ env₂ : Env) (r₁ r₂ : Request) (σ : Sys) (pre rest : List Bool) :
    runSchedule env₁ env₂ r₁ r₂ σ (pre ++ rest)
      = runSchedule env₁ env₂ r₁ r₂ (runSchedule env₁ env₂ r₁ r₂ σ pre) rest := by
  simp [runSchedule, List.foldl_append]

theorem race_both_succeed (s : Store) (B : Nat) (book : Book) (env₁ env₂ : Env)
    (r₁ r₂ : Request) (sched : List Bool)
    (hfind : Book.findByPk s B = some book) (hstock : book.stock = 1)
    (hb₁ : r₁.body.bookId = some B) (hb₂ : r₂.body.bookId = some B)
    (hc₁ : env₁.createFails = none) (hu₁ : env₁.updateFails = none)
    (hc₂ : env₂.createFails = none) (hu₂ : env₂.updateFails = none)
    (hrace : lookupsBeforeWrites sched = true) :
    (runSchedule env₁ env₂ r₁ r₂ (Sys.init s) sched).pc₁.status ≠ 400 ∧
    (runSchedule env₁ env₂ r₁ r₂ (Sys.init s) sched).pc₂.status ≠ 400 := by
  obtain ⟨pre, hmem, hfl⟩ := List.any_eq_true.mp hrace
  obtain ⟨rest, hsched⟩ := (List.mem_inits pre sched).mp hmem
  simp only [bothInFlight, decide_eq_true_eq] at hfl
  obtain ⟨a₁, a₂, b₁, b₂⟩ := hfl
  have hinit := raceInv_init s B book hfind hstock
  obtain ⟨k₁, k₂⟩ := early_ranks env₁ env₂ r₁ r₂ B s.logs.length pre hb₁ hb₂ hc₁ hu₁ hc₂ hu₂
    (Sys.init s) hinit (by simp [Sys.init, BorrowPc.rank]; omega)
    (by simp [Sys.init, BorrowPc.rank]; omega)
  have z₁ : (Sys.init s).pc₁.rank = 0 := rfl
  have z₂ : (Sys.init s).pc₂.rank = 0 := rfl
  rw [z₁, Nat.zero_add] at k₁
  rw [z₂, Nat.zero_add] at k₂
  rw [← hsched, run_append]
  apply noFail_run env₁ env₂ r₁ r₂ rest hc₁ hu₁ hc₂ hu₂
  · omega
  · rw [status_of_rank _ (by omega)]
    decide
  · omega
  · rw [status_of_rank _ (by omega)]
    decide

theorem race_one_succeeds (s : Store) (B : Nat) (book : Book) (env₁ env₂ : Env)
    (r₁ r₂ : Request) (sched : List Bool) (res₁ res₂ : Response)
    (hfind : Book.findByPk s B = some book) (hstock : book.stock = 1)
    (hb₁ : r₁.body.bookId = some B) (hb₂ : r₂.body.bookId = some B)
    (hc₁ : env₁.createFails = none) (hu₁ : env₁.updateFails = none)
    (hc₂ : env₂.createFails = none) (hu₂ : env₂.updateFails = none)
    (hserial : lookupsBeforeWrites sched = false)
    (e₁ : (runSchedule env₁ env₂ r₁ r₂ (Sys.init s) sched).pc₁ = .done res₁)
    (e₂ : (runSchedule env₁ env₂ r₁ r₂ (Sys.init s) sched).pc₂ = .done res₂) :
    (res₁.status = 201 ∧ res₂.status = 400) ∨ (res₁.status = 400 ∧ res₂.status = 201) := by
  have hinit := raceInv_init s B book hfind hstock
  obtain ⟨i₁, i₂⟩ := idle_run env₁ env₂ r₁ r₂ sched (Sys.init s)
  have ht : 1 ≤ sched.count true := by
    by_contra hc
    have := i₁ (by omega)
    rw [e₁] at this
    simp [Sys.init] at this
  have hf : 1 ≤ sched.count false := by
    by_contra hc
    have := i₂ (by omega)
    rw [e₂] at this
    simp [Sys.init] at this
  rcases serial_shape sched hserial ht hf with ⟨rest, hs⟩ | ⟨rest, hs⟩
  · subst hs
    have h3 := raceInv_run env₁ env₂ r₁ r₂ B s.logs.length [true, true, true]
      hb₁ hb₂ hc₁ hu₁ hc₂ hu₂ (Sys.init s) hinit
    obtain ⟨k₁, _⟩ := run_rank env₁ env₂ r₁ r₂ [true, true, true] (Sys.init s)
    have hp : (runSchedule env₁ env₂ r₁ r₂ (Sys.init s) [true, true, true]).pc₂ = .lookup := rfl
    obtain ⟨hs201, _⟩ := done_status_of_first B s.logs.length _ h3
      (le_trans (by simp [Sys.init, BorrowPc.rank]) k₁) hp
    have e : runSchedule env₁ env₂ r₁ r₂ (Sys.init s) (true :: true :: true :: rest)
        = runSchedule env₁ env₂ r₁ r₂
            (runSchedule env₁ env₂ r₁ r₂ (Sys.init s) [true, true, true]) rest := rfl
    obtain ⟨w₁, w₂⟩ := first_won_run env₁ env₂ r₁ r₂ B s.logs.length rest
      hb₁ hb₂ hc₁ hu₁ hc₂ hu₂ _ h3 hs201 (Or.inl hp)
    rw [← e, e₁] at w₁
    rw [← e, e₂] at w₂
    rcases w₂ with w | w
    · cases w
    · exact Or.inl ⟨w₁, w⟩
  · subst hs
    have h3 := raceInv_run env₁ env₂ r₁ r₂ B s.logs.length [false, false, false]
      hb₁ hb₂ hc₁ hu₁ hc₂ hu₂ (Sys.init s) hinit
    obtain ⟨_, k₂⟩ := run_rank env₁ env₂ r₁ r₂ [false, false, false] (Sys.init s)
    have hp : (runSchedule env₁ env₂ r₁ r₂ (Sys.init s) [false, false, false]).pc₁ = .lookup :=
      rfl
    obtain ⟨hs201, _⟩ := done_status_of_second B s.logs.length _ h3
      (le_trans (by simp [Sys.init, BorrowPc.rank]) k₂) hp
    have e : runSchedule env₁ env₂ r₁ r₂ (Sys.init s) (false :: false :: false :: rest)
        = runSchedule env₁ env₂ r₁ r₂
            (runSchedule env₁ env₂ r₁ r₂ (Sys.init s) [false, false, false]) rest := rfl
    obtain ⟨w₁, w₂⟩ := second_won_run env₁ env₂ r₁ r₂ B s.logs.length rest
      hb₁ hb₂ hc₁ hu₁ hc₂ hu₂ _ h3 hs201 (Or.inl hp)
    rw [← e, e₂] at w₁
    rw [← e, e₁] at w₂
    rcases w₂ with w | w
    · cases w
    · exact Or.inr ⟨w, w₁⟩

/-- C3, as stated, fails: with one copy left, when both requests look the book up before
either writes, both are answered 201 and two BorrowLogs are created; the final stock is
0, because each request writes the stock it read minus one. -/
theorem race_counterexample :
    stockOf exLastCopy 1 = 1 ∧
    (runSchedule (Env.quiet 5 1) (Env.quiet 6 1) (exGatedBorrowReq "7" 1)
        (exGatedBorrowReq "8" 1) (Sys.init exLastCopy) exRace).pc₁.status = 201 ∧
    (runSchedule (Env.quiet 5 1) (Env.quiet 6 1) (exGatedBorrowReq "7" 1)
        (exGatedBorrowReq "8" 1) (Sys.init exLastCopy) exRace).pc₂.status = 201 ∧
    (runSchedule (Env.quiet 5 1) (Env.quiet 6 1) (exGatedBorrowReq "7" 1)
        (exGatedBorrowReq "8" 1) (Sys.init exLastCopy) exRace).store.logs.length = 2 ∧
    stockOf (runSchedule (Env.quiet 5 1) (Env.quiet 6 1) (exGatedBorrowReq "7" 1)
        (exGatedBorrowReq "8" 1) (Sys.init exLastCopy) exRace).store 1 = 0 := by
  decide

/-- C3 (amended): two borrow requests for a book with stock 1, no store write failing.
Every schedule that gives each request three turns answers both.  Whenever both are
answered: at least one got 201, each got 201 or the 400 "exhausted" answer, the number of
BorrowLogs created equals the number of 201 answers, and the final stock is 0, never -1.
When both look-ups precede the first stock write, both requests get 201 and two
BorrowLogs are created; otherwise exactly one gets 201, the other gets 400 and one
BorrowLog is created.  In particular, when one request is handled to its end before the
other starts, exactly that one gets 201 and the other gets 400. -/
theorem race_last_copy (s : Store) (B : Nat) (book : Book) (env₁ env₂ : Env)
    (r₁ r₂ : Request) (sched : List Bool)
    (hfind : Book.findByPk s B = some book) (hstock : book.stock = 1)
    (hb₁ : r₁.body.bookId = some B) (hb₂ : r₂.body.bookId = some B)
    (hc₁ : env₁.createFails = none) (hu₁ : env₁.updateFails = none)
    (hc₂ : env₂.createFails = none) (hu₂ : env₂.updateFails = none) :
    (3 ≤ sched.count true → 3 ≤ sched.count false →
      ∃ res₁ res₂, (runSchedule env₁ env₂ r₁ r₂ (Sys.init s) sched).pc₁ = .done res₁ ∧
        (runSchedule env₁ env₂ r₁ r₂ (Sys.init s) sched).pc₂ = .done res₂) ∧
    (∀ res₁ res₂, (runSchedule env₁ env₂ r₁ r₂ (Sys.init s) sched).pc₁ = .done res₁ →
      (runSchedule env₁ env₂ r₁ r₂ (Sys.init s) sched).pc₂ = .done res₂ →
      (res₁.status = 201 ∨ res₂.status = 201) ∧
      (res₁.status = 201 ∨ res₁.status = 400) ∧
      (res₂.status = 201 ∨ res₂.status = 400) ∧
      (runSchedule env₁ env₂ r₁ r₂ (Sys.init s) sched).store.logs.length
        = s.logs.length + (runSchedule env₁ env₂ r₁ r₂ (Sys.init s) sched).successes ∧
      stockOf (runSchedule env₁ env₂ r₁ r₂ (Sys.init s) sched).store B = 0 ∧
      (lookupsBeforeWrites sched = true →
        res₁.status = 201 ∧ res₂.status = 201 ∧
        (runSchedule env₁ env₂ r₁ r₂ (Sys.init s) sched).store.logs.length
          = s.logs.length + 2) ∧
      (lookupsBeforeWrites sched = false →
        ((res₁.status = 201 ∧ res₂.status = 400) ∨ (res₁.status = 400 ∧ res₂.status = 201)) ∧
        (runSchedule env₁ env₂ r₁ r₂ (Sys.init s) sched).store.logs.length
          = s.logs.length + 1)) ∧
    (sched = [true, true, true, false] →
      (runSchedule env₁ env₂ r₁ r₂ (Sys.init s) sched).pc₁.status = 201 ∧
      (runSchedule env₁ env₂ r₁ r₂ (Sys.init s) sched).pc₂.status = 400) ∧
    (sched = [false, false, false, true] →
      (runSchedule env₁ env₂ r₁ r₂ (Sys.init s) sched).pc₁.status = 400 ∧
      (runSchedule env₁ env₂ r₁ r₂ (Sys.init s) sched).pc₂.status = 201) := by
  have hinit := raceInv_init s B book hfind hstock
  have hrun := fun sch =>
    raceInv_run env₁ env₂ r₁ r₂ B s.logs.length sch hb₁ hb₂ hc₁ hu₁ hc₂ hu₂ (Sys.init s) hinit
  refine ⟨?_, ?_, ?_, ?_⟩
  · intro h₁ h₂
    obtain ⟨k₁, k₂⟩ := run_rank env₁ env₂ r₁ r₂ sched (Sys.init s)
    obtain ⟨res₁, e₁⟩ := rank_done _ (le_trans (by simp [Sys.init, BorrowPc.rank, h₁]) k₁)
    obtain ⟨res₂, e₂⟩ := rank_done _ (le_trans (by simp [Sys.init, BorrowPc.rank, h₂]) k₂)
    exact ⟨res₁, res₂, e₁, e₂⟩
  · intro res₁ res₂ e₁ e₂
    have hboth := race_both_succeed s B book env₁ env₂ r₁ r₂ sched hfind hstock
      hb₁ hb₂ hc₁ hu₁ hc₂ hu₂
    have hserial := fun h => race_one_succeeds s B book env₁ env₂ r₁ r₂ sched res₁ res₂
      hfind hstock hb₁ hb₂ hc₁ hu₁ hc₂ hu₂ h e₁ e₂
    obtain ⟨v₁, v₂, _, hst, f₁, f₂, hl⟩ := hrun sched
    simp only [Sys.successes]
    rw [e₁] at v₁ f₁ hst hl hboth ⊢
    rw [e₂] at v₂ f₁ f₂ hst hl hboth ⊢
    simp only [BorrowPc.Valid, BorrowPc.status, BorrowPc.holdsLog] at v₁ v₂ f₁ f₂ hst hl hboth ⊢
    have hone : res₁.status = 201 ∨ res₂.status = 201 := by
      rcases v₁ with v | v
      · exact Or.inl v
      · exact Or.inr (f₁ v)
    refine ⟨hone, v₁, v₂, ?_, ?_, ?_, ?_⟩
    · rw [hl, Nat.add_assoc]
    · rw [hst, if_pos hone]
    · intro hr
      obtain ⟨n₁, n₂⟩ := hboth hr
      have w₁ : res₁.status = 201 := v₁.resolve_right n₁
      have w₂ : res₂.status = 201 := v₂.resolve_right n₂
      refine ⟨w₁, w₂, ?_⟩
      rw [hl, w₁, w₂]
      rfl
    · intro hr
      have hcase := hserial hr
      refine ⟨hcase, ?_⟩
      rcases hcase with ⟨w₁, w₂⟩ | ⟨w₁, w₂⟩
      · rw [hl, w₁, w₂]
        rfl
      · rw [hl, w₁, w₂]
        rfl
  · intro hs
    subst hs
    have h3 := hrun [true, true, true]
    obtain ⟨k₁, _⟩ := run_rank env₁ env₂ r₁ r₂ [true, true, true] (Sys.init s)
    have hp : (runSchedule env₁ env₂ r₁ r₂ (Sys.init s) [true, true, true]).pc₂ = .lookup := rfl
    obtain ⟨hs201, hs0⟩ := done_status_of_first B s.logs.length _ h3
      (le_trans (by simp [Sys.init, BorrowPc.rank]) k₁) hp
    have e : runSchedule env₁ env₂ r₁ r₂ (Sys.init s) [true, true, true, false]
        = sysStep env₁ env₂ r₁ r₂
            (runSchedule env₁ env₂ r₁ r₂ (Sys.init s) [true, true, true]) false := rfl
    rw [e, sysStep_second, hp,
      lookup_exhausted env₂ r₂ _ B hb₂ h3.2.2.1 hs0]
    exact ⟨hs201, rfl⟩
  · intro hs
    subst hs
    have h3 := hrun [false, false, false]
    obtain ⟨_, k₂⟩ := run_rank env₁ env₂ r₁ r₂ [false, false, false] (Sys.init s)
    have hp : (runSchedule env₁ env₂ r₁ r₂ (Sys.init s) [false, false, false]).pc₁ = .lookup :=
      rfl
    obtain ⟨hs201, hs0⟩ := done_status_of_second B s.logs.length _ h3
      (le_trans (by simp [Sys.init, BorrowPc.rank]) k₂) hp
    have e : runSchedule env₁ env₂ r₁ r₂ (Sys.init s) [false, false, false, true]
        = sysStep env₁ env₂ r₁ r₂
            (runSchedule env₁ env₂ r₁ r₂ (Sys.init s) [false, false, false]) true := rfl
    rw [e, sysStep_first, hp,
      lookup_exhausted env₁ r₁ _ B hb₁ h3.2.2.1 hs0]
    exact ⟨rfl, hs201⟩

theorem race_last_copy_witness :
    ((runSchedule (Env.quiet 5 1) (Env.quiet 6 1) (exGatedBorrowReq "7" 1)
        (exGatedBorrowReq "8" 1) (Sys.init exLastCopy) [true, true, true, false]).pc₁.status = 201 ∧
     (runSchedule (Env.quiet 5 1) (Env.quiet 6 1) (exGatedBorrowReq "7" 1)
        (exGatedBorrowReq "8" 1) (Sys.init exLastCopy) [true, true, true, false]).pc₂.status = 400) ∧
    ((⟨201, .logData "Peminjaman Berhasil!" ⟨1, some "7", 1, 5, none, none⟩⟩ : Response).status = 201 ∧
     (⟨201, .logData "Peminjaman Berhasil!" ⟨2, some "8", 1, 6, none, none⟩⟩ : Response).status = 201 ∧
     (runSchedule (Env.quiet 5 1) (Env.quiet 6 1) (exGatedBorrowReq "7" 1)
        (exGatedBorrowReq "8" 1) (Sys.init exLastCopy) exRace).store.logs.length
       = exLastCopy.logs.length + 2) :=
  ⟨(race_last_copy exLastCopy 1 ⟨1, "Dune", "Herbert", 1⟩ (Env.quiet 5 1) (Env.quiet 6 1)
      (exGatedBorrowReq "7" 1) (exGatedBorrowReq "8" 1) [true, true, true, false]
      (by decide) rfl rfl rfl rfl rfl rfl rfl).2.2.1 rfl,
   ((race_last_copy exLastCopy 1 ⟨1, "Dune", "Herbert", 1⟩ (Env.quiet 5 1) (Env.quiet 6 1)
      (exGatedBorrowReq "7" 1) (exGatedBorrowReq "8" 1) exRace
      (by decide) rfl rfl rfl rfl rfl rfl rfl).2.1
      ⟨201, .logData "Peminjaman Berhasil!" ⟨1, some "7", 1, 5, none, none⟩⟩
      ⟨201, .logData "Peminjaman Berhasil!" ⟨2, some "8", 1, 6, none, none⟩⟩
      (by decide) (by decide)).2.2.2.2.2.1 (by decide)⟩

end Library
